import Mathlib

/-!
Shallow embedding of the simulation core of `rustycropbot`
(`src/entity.rs`, `src/helpers.rs`, `src/main.rs`), together with proofs
checking the specification's claims about it.

Modelling conventions:
* `f32` values are modelled as exact rationals (`ℚ`); every algorithm
  verified here uses only addition, subtraction, multiplication by
  constants, `min`/`max` and comparisons, all exact over the rationals.
* `u16` flag masks and `u64` ids are modelled as `ℕ`; a bit is tested
  with `Nat.land`, mirroring `(flags & bit) != 0`.
* Rust `HashMap`s are modelled as association lists whose insert
  replaces any previous binding; equality of `HashMap<String, f32>`
  (used to compare parameter tables) is modelled as two-sided lookup
  agreement, matching unordered map equality.
* The built-in condition `target_in_range` compares
  `entity.pos.distance(target) <= range`; both sides are non-negative,
  so it is embedded as the equivalent comparison of squares, which keeps
  the whole development inside ℚ.
* Fields of `EntityInstance` that none of the checked claims read
  (texture data, behavior runtime list, scratch buffers, the `def`
  index) are omitted; the definition's flags and local hitbox are passed
  explicitly where the source reads `db.entities[self.def]`.
-/

namespace Cropbot

/-- `macroquad::math::Vec2` in the exact-rational model. -/
structure Vec2 where
  x : ℚ
  y : ℚ
deriving DecidableEq, Repr

/-- `Vec2::distance_squared`. -/
def Vec2.distance_squared (a b : Vec2) : ℚ :=
  (a.x - b.x) * (a.x - b.x) + (a.y - b.y) * (a.y - b.y)

/-- `macroquad::math::Rect`. -/
structure Rect where
  x : ℚ
  y : ℚ
  w : ℚ
  h : ℚ
deriving DecidableEq, Repr

/-- `macroquad::math::Rect::overlaps`; boundary contact counts as overlap. -/
def Rect.overlaps (a b : Rect) : Bool :=
  decide (a.x ≤ b.x + b.w) && decide (a.x + a.w ≥ b.x) &&
  decide (a.y ≤ b.y + b.h) && decide (a.y + a.h ≥ b.y)

/-- `f32::max` on the exact-rational model (no NaN in this model). -/
def fmax (a b : ℚ) : ℚ := if a ≤ b then b else a

/-- `f32::min` on the exact-rational model. -/
def fmin (a b : ℚ) : ℚ := if a ≤ b then a else b

theorem fmax_eq_max (a b : ℚ) : fmax a b = max a b := by
  rw [fmax, max_def]

theorem fmin_eq_min (a b : ℚ) : fmin a b = min a b := by
  rw [fmin, min_def]

/-- `EntityKind` (`entity.rs`). -/
inductive EntityKind where
  | enemy
  | friend
  | misc
deriving DecidableEq, Repr

/-- `DEF_FLAG_*` bit constants (`entity.rs`). -/
def DEF_FLAG_TARGET_PLAYER : ℕ := 1 <<< 0

def DEF_FLAG_TARGET_NEAREST_ENTITY : ℕ := 1 <<< 1

def DEF_FLAG_TARGET_NEAREST_ENEMY : ℕ := 1 <<< 2

def DEF_FLAG_TARGET_NEAREST_FRIEND : ℕ := 1 <<< 3

def DEF_FLAG_TARGET_NEAREST_MISC : ℕ := 1 <<< 4

def DEF_FLAG_NO_ENTITY_COLLISION : ℕ := 1 <<< 5

def DEF_FLAG_NO_ENEMY_COLLISION : ℕ := 1 <<< 6

def DEF_FLAG_NO_FRIEND_COLLISION : ℕ := 1 <<< 7

def DEF_FLAG_NO_MISC_COLLISION : ℕ := 1 <<< 8

def DEF_FLAG_NO_PLAYER_COLLISION : ℕ := 1 <<< 9

/-- `(flags & bit) != 0` (`EntityDef::has_flag` and the inline tests). -/
def hasFlag (flags bit : ℕ) : Bool :=
  decide (Nat.land flags bit ≠ 0)

/-- `StatBlock`: a flat stat table (`HashMap<String, f32>`). -/
structure StatBlock where
  values : List (String × ℚ)
deriving DecidableEq, Repr

/-- `StatBlock::get`. -/
def StatBlock.get (s : StatBlock) (key : String) (dflt : ℚ) : ℚ :=
  match s.values.lookup key with
  | some v => v
  | none => dflt

/-- `MovementParams = HashMap<String, f32>` as an association list with
unique keys. -/
abbrev MovementParams := List (String × ℚ)

def paramsLookup (p : MovementParams) (key : String) : Option ℚ :=
  p.lookup key

/-- `HashMap::insert`: replace any previous binding of `key`. -/
def paramsInsert (p : MovementParams) (key : String) (v : ℚ) : MovementParams :=
  (key, v) :: p.filter (fun kv => decide (kv.1 ≠ key))

/-- `HashMap::entry(key).or_insert(v)`. -/
def paramsInsertIfAbsent (p : MovementParams) (key : String) (v : ℚ) : MovementParams :=
  match p.lookup key with
  | some _ => p
  | none => (key, v) :: p

/-- Equality of two `HashMap<String, f32>` values: every key present on
either side looks up to the same value on both sides (order-independent
map equality). -/
def paramsEq (a b : MovementParams) : Bool :=
  (a ++ b).all fun kv => paramsLookup a kv.1 == paramsLookup b kv.1

/-- The `extra` YAML table of an `Action` node. `action_params` only reads
its numeric entries (`value.as_f64()`), so each value is modelled as
`Option ℚ` (`none` for a non-numeric YAML value). -/
abbrev ExtraParams := List (String × Option ℚ)

/-- `BehaviorNode` (`entity.rs`). -/
inductive BehaviorNode where
  | selector (children : List BehaviorNode)
  | sequence (children : List BehaviorNode)
  | condition (name : String) (value : Option ℚ)
  | action (name : String) (multiple : Bool) (params : MovementParams) (extra : ExtraParams)
deriving Repr

/-- `SelectedAction` (`entity.rs`). -/
structure SelectedAction where
  name : String
  params : MovementParams
deriving DecidableEq, Repr

/-- `action_params` (`entity.rs`): merge numeric `extra` entries into the
parameter table, then backfill `dash_cooldown` from `cooldown`. -/
def action_params (params : MovementParams) (extra : ExtraParams) : MovementParams :=
  let merged := extra.foldl
    (fun m kv =>
      match kv.2 with
      | some v => paramsInsert m kv.1 v
      | none => m)
    params
  match paramsLookup merged "cooldown" with
  | some v => paramsInsertIfAbsent merged "dash_cooldown" v
  | none => merged

/-- `PlayerTarget` (`entity.rs`). -/
structure PlayerTarget where
  pos : Vec2
  hitbox : Rect
deriving DecidableEq, Repr

/-- `EntityTarget` (`entity.rs`); the `def` field is named `def_idx`. -/
structure EntityTarget where
  id : ℕ
  def_idx : ℕ
  kind : EntityKind
  pos : Vec2
  hitbox : Rect
  alive : Bool
deriving DecidableEq, Repr

/-- `Target` (`entity.rs`). -/
inductive Target where
  | position (pos : Vec2)
  | player (p : PlayerTarget)
  | entity (e : EntityTarget)
deriving DecidableEq, Repr

/-- `Target::position`. -/
def Target.targetPos : Target → Vec2
  | .position pos => pos
  | .player p => p.pos
  | .entity e => e.pos

/-- `DamageEvent` (`entity.rs`). -/
structure DamageEvent where
  amount : ℚ
  target : Target
deriving DecidableEq, Repr

/-- The frame-spanning target cache
(`HashMap<(u64, u8), Option<EntityTarget>>`). -/
abbrev TargetCache := List ((ℕ × ℕ) × Option EntityTarget)

def cacheLookup (c : TargetCache) (key : ℕ × ℕ) : Option (Option EntityTarget) :=
  c.lookup key

def cacheInsert (c : TargetCache) (key : ℕ × ℕ) (v : Option EntityTarget) : TargetCache :=
  (key, v) :: c.filter (fun e => decide (e.1 ≠ key))

/-- `EntityContext` (`entity.rs`). -/
structure EntityContext where
  player : Option PlayerTarget
  target : Option Target
  entities : List EntityTarget
  target_cache : TargetCache
  view_height : ℚ
  damage_events : List DamageEvent
deriving DecidableEq, Repr

/-- `EntityInstance` (`entity.rs`), restricted to the fields the checked
claims read. -/
structure EntityInstance where
  uid : ℕ
  pos : Vec2
  vel : Vec2
  speed : ℚ
  stats : StatBlock
  hp : ℚ
  max_hp : ℚ
  current_target : Option Target
  contact_cooldown : ℚ
deriving DecidableEq, Repr

/-- `EntityDef::world_hitbox`: the actor-local hitbox translated to world
coordinates. -/
def world_hitbox (hitbox : Rect) (pos : Vec2) : Rect :=
  ⟨pos.x + hitbox.x, pos.y + hitbox.y, hitbox.w, hitbox.h⟩

/-- `eval_condition` (`entity.rs`). Only `target_in_range` is built in; the
distance comparison is embedded squared (see the header comment). -/
def eval_condition (name : String) (value : Option ℚ) (entity : EntityInstance)
    (ctx : EntityContext) : Bool :=
  match name with
  | "target_in_range" =>
    match entity.current_target with
    | none => false
    | some target =>
      let range := fmax (value.getD 1) 0 * fmax ctx.view_height 1
      decide (Vec2.distance_squared entity.pos target.targetPos ≤ range * range)
  | _ => false

/-- The result triple of `eval_behavior`:
(primary action, fires-alongside actions, success flag). -/
abbrev EvalResult := Option SelectedAction × List SelectedAction × Bool

/-- The `Sequence` accumulation loop of `eval_behavior`: first failing
child aborts with nothing; a later primary overrides an earlier one;
secondary actions accumulate. -/
def seqGo : Option SelectedAction → List SelectedAction → List EvalResult → EvalResult
  | acc, accm, [] => (acc, accm, true)
  | acc, accm, (child_action, child_multiple, ok) :: rest =>
    if ok then
      seqGo (if child_action.isSome then child_action else acc) (accm ++ child_multiple) rest
    else (none, [], false)

/-- The `Selector` accumulation loop of `eval_behavior`: every successful
child counts; the primary slot is only filled while still empty;
secondary actions accumulate from every successful child. -/
def selGo : Option SelectedAction → List SelectedAction → Bool → List EvalResult → EvalResult
  | primary, accm, any_ok, [] => (primary, accm, any_ok)
  | primary, accm, any_ok, (child_action, child_multiple, ok) :: rest =>
    if ok then
      selGo (if primary.isNone then child_action else primary) (accm ++ child_multiple) true rest
    else selGo primary accm any_ok rest

mutual

/-- `eval_behavior` (`entity.rs`). -/
def eval_behavior (entity : EntityInstance) (ctx : EntityContext) :
    BehaviorNode → EvalResult
  | .action name multiple params extra =>
    let act : SelectedAction := ⟨name, action_params params extra⟩
    (some act, if multiple then [⟨act.name, act.params⟩] else [], true)
  | .condition name value => (none, [], eval_condition name value entity ctx)
  | .sequence children => seqGo none [] (evalChildren entity ctx children)
  | .selector children => selGo none [] false (evalChildren entity ctx children)

/-- Evaluate all children of a composite node, left to right. -/
def evalChildren (entity : EntityInstance) (ctx : EntityContext) :
    List BehaviorNode → List EvalResult
  | [] => []
  | c :: rest => eval_behavior entity ctx c :: evalChildren entity ctx rest

end

/-- The duplicate test of `select_actions`:
`existing.name == action.name && existing.params == action.params`. -/
def actionDup (a b : SelectedAction) : Bool :=
  a.name == b.name && paramsEq a.params b.params

/-- One `push`-unless-duplicate step of the `select_actions` output loop. -/
def pushDedup (out : List SelectedAction) (action : SelectedAction) : List SelectedAction :=
  if out.any (fun existing => actionDup existing action) then out else out ++ [action]

/-- `select_actions` (`entity.rs`). -/
def select_actions (node : BehaviorNode) (entity : EntityInstance)
    (ctx : EntityContext) : List SelectedAction :=
  let r := eval_behavior entity ctx node
  if r.2.2 then
    let out := match r.1 with
      | some primary => [primary]
      | none => []
    r.2.1.foldl pushDedup out
  else []

/-- The `is_kind_targetable` closure inside `EntityContext::resolve_target`. -/
def is_kind_targetable (def_flags : ℕ) (kind : EntityKind) : Bool :=
  let target_any := hasFlag def_flags DEF_FLAG_TARGET_NEAREST_ENTITY
  let target_enemy := hasFlag def_flags DEF_FLAG_TARGET_NEAREST_ENEMY
  let target_friend := hasFlag def_flags DEF_FLAG_TARGET_NEAREST_FRIEND
  let target_misc := hasFlag def_flags DEF_FLAG_TARGET_NEAREST_MISC
  let has_specific_target_flags := target_enemy || target_friend || target_misc
  match kind with
  | .enemy => if has_specific_target_flags then target_enemy else target_any || target_enemy
  | .friend => if has_specific_target_flags then target_friend else target_any || target_friend
  | .misc => if has_specific_target_flags then target_misc else target_any || target_misc

/-- The 4-bit targeting mask computed in `resolve_target`. -/
def targetMask (def_flags : ℕ) : ℕ :=
  Nat.lor (hasFlag def_flags DEF_FLAG_TARGET_NEAREST_ENTITY).toNat
    (Nat.lor ((hasFlag def_flags DEF_FLAG_TARGET_NEAREST_ENEMY).toNat <<< 1)
      (Nat.lor ((hasFlag def_flags DEF_FLAG_TARGET_NEAREST_FRIEND).toNat <<< 2)
        ((hasFlag def_flags DEF_FLAG_TARGET_NEAREST_MISC).toNat <<< 3)))

/-- The full-recomputation scan of `resolve_target`: nearest live eligible
candidate by squared distance, skipping the actor itself; strict
improvement only, so ties keep the earliest-seen candidate. -/
def scanNearest (def_flags : ℕ) (entity : EntityInstance) :
    List EntityTarget → Option (ℚ × EntityTarget) → Option (ℚ × EntityTarget)
  | [], best => best
  | candidate :: rest, best =>
    if candidate.id == entity.uid then scanNearest def_flags entity rest best
    else if !candidate.alive then scanNearest def_flags entity rest best
    else if !is_kind_targetable def_flags candidate.kind then scanNearest def_flags entity rest best
    else
      let dist_sq := Vec2.distance_squared entity.pos candidate.pos
      match best with
      | some (best_dist, _) =>
        if dist_sq ≥ best_dist then scanNearest def_flags entity rest best
        else scanNearest def_flags entity rest (some (dist_sq, candidate))
      | none => scanNearest def_flags entity rest (some (dist_sq, candidate))

/-- `EntityContext::resolve_target` (`entity.rs`); `db.entities[entity.def].flags`
is passed as `def_flags`. Returns the resolved target and the updated
cross-frame cache. -/
def resolve_target (ctx : EntityContext) (def_flags : ℕ) (entity : EntityInstance) :
    Option Target × TargetCache :=
  match ctx.target with
  | some target => (some target, ctx.target_cache)
  | none =>
    if hasFlag def_flags DEF_FLAG_TARGET_PLAYER then
      (ctx.player.map Target.player, ctx.target_cache)
    else
      let mask := targetMask def_flags
      if mask = 0 then (none, ctx.target_cache)
      else
        let resolved := (scanNearest def_flags entity ctx.entities none).map Prod.snd
        let recomputed := (resolved.map Target.entity,
          cacheInsert ctx.target_cache (entity.uid, mask) resolved)
        match cacheLookup ctx.target_cache (entity.uid, mask) with
        | some (some cached_target) =>
          match ctx.entities.find? (fun candidate =>
              candidate.id == cached_target.id && candidate.alive &&
              is_kind_targetable def_flags candidate.kind) with
          | some target => (some (Target.entity target), ctx.target_cache)
          | none => recomputed
        | some none => (none, ctx.target_cache)
        | none => recomputed

/-- The kind-eligibility match inside `EntityInstance::apply_contact_damage`
(`entity.rs` lines 540-562). -/
def contactKindOk (def_flags : ℕ) (kind : EntityKind) : Bool :=
  let target_any := hasFlag def_flags DEF_FLAG_TARGET_NEAREST_ENTITY
  let target_enemy := hasFlag def_flags DEF_FLAG_TARGET_NEAREST_ENEMY
  let target_friend := hasFlag def_flags DEF_FLAG_TARGET_NEAREST_FRIEND
  let target_misc := hasFlag def_flags DEF_FLAG_TARGET_NEAREST_MISC
  let has_specific_target_flags := target_enemy || target_friend || target_misc
  match kind with
  | .enemy => if has_specific_target_flags then target_enemy else target_any || target_enemy
  | .friend => if has_specific_target_flags then target_friend else target_any || target_friend
  | .misc => if has_specific_target_flags then target_misc else target_any || target_misc

/-- The target-hitbox resolution of `EntityInstance::apply_contact_damage`
(the inner match on `target`): a position target yields nothing; a
player target requires the target-player flag and a present player; an
entity target requires a live snapshot candidate of that id passing the
kind-eligibility check. -/
def contact_target_hitbox (def_flags : ℕ) (ctx : EntityContext) : Target → Option Rect
  | .position _ => none
  | .player _ =>
    if !hasFlag def_flags DEF_FLAG_TARGET_PLAYER then none
    else ctx.player.map PlayerTarget.hitbox
  | .entity target_entity =>
    match ctx.entities.find? (fun candidate =>
        candidate.id == target_entity.id && candidate.alive) with
    | none => none
    | some target_live =>
      if contactKindOk def_flags target_live.kind then some target_live.hitbox
      else none

/-- `EntityInstance::apply_contact_damage` (`entity.rs`); the definition's
flags and local hitbox are passed explicitly. Returns the updated
instance and the context with any appended `DamageEvent`. -/
def apply_contact_damage (def_flags : ℕ) (def_hitbox : Rect)
    (inst : EntityInstance) (ctx : EntityContext) : EntityInstance × EntityContext :=
  let damage := inst.stats.get "damage" 0
  if damage ≤ 0 ∨ inst.contact_cooldown > 0 then (inst, ctx)
  else
    match inst.current_target with
    | none => (inst, ctx)
    | some target =>
      match contact_target_hitbox def_flags ctx target with
      | none => (inst, ctx)
      | some target_hitbox =>
        let hb := world_hitbox def_hitbox inst.pos
        if hb.overlaps target_hitbox then
          ({inst with contact_cooldown := 3/10},
           {ctx with damage_events := ctx.damage_events ++ [⟨damage, target⟩]})
        else (inst, ctx)

/-- Per-frame inputs to the contact-damage portion of
`EntityInstance::update`: the frame step `dt` and the values produced by
the parts of `update` that the cooldown gate does not influence (the
actor's position after movement, the resolved target, and the frame
snapshot). -/
structure ContactFrame where
  dt : ℚ
  pos : Vec2
  target : Option Target
  player : Option PlayerTarget
  entities : List EntityTarget
deriving DecidableEq, Repr

/-- The frame context carrying a `ContactFrame`'s snapshot inputs. -/
def frameCtx (f : ContactFrame) : EntityContext :=
  ⟨f.player, none, f.entities, [], 1, []⟩

/-- One frame of `EntityInstance::update` restricted to the contact-damage
state: the cooldown decrement (lines 348-350) followed by
`apply_contact_damage` (line 480). Returns the cooldown carried to the
next frame and the `DamageEvent`s appended this frame. -/
def contactFrameStep (def_flags : ℕ) (def_hitbox : Rect) (stats : StatBlock)
    (cooldown : ℚ) (f : ContactFrame) : ℚ × List DamageEvent :=
  let cooldown1 := if cooldown > 0 then fmax (cooldown - f.dt) 0 else cooldown
  let inst : EntityInstance :=
    ⟨0, f.pos, ⟨0, 0⟩, 0, stats, 1, 1, f.target, cooldown1⟩
  let r := apply_contact_damage def_flags def_hitbox inst (frameCtx f)
  (r.1.contact_cooldown, r.2.damage_events)

/-- Run `contactFrameStep` over a list of frames, threading the cooldown;
returns the final cooldown and the per-frame event lists. -/
def runContact (def_flags : ℕ) (def_hitbox : Rect) (stats : StatBlock) :
    ℚ → List ContactFrame → ℚ × List (List DamageEvent)
  | cooldown, [] => (cooldown, [])
  | cooldown, f :: rest =>
    let s := contactFrameStep def_flags def_hitbox stats cooldown f
    let r := runContact def_flags def_hitbox stats s.1 rest
    (r.1, s.2 :: r.2)

/-- The candidate loop of `collect_dynamic_collision_hitboxes`. -/
def dynamicLoop (entity_uid : ℕ) (no_enemy_collision no_friend_collision no_misc_collision : Bool)
    (target_entity_id : Option ℕ) : List EntityTarget → List Rect
  | [] => []
  | other :: rest =>
    if other.id == entity_uid then
      dynamicLoop entity_uid no_enemy_collision no_friend_collision no_misc_collision
        target_entity_id rest
    else if target_entity_id == some other.id then
      dynamicLoop entity_uid no_enemy_collision no_friend_collision no_misc_collision
        target_entity_id rest
    else
      let kind_excluded :=
        match other.kind with
        | .enemy => no_enemy_collision
        | .friend => no_friend_collision
        | .misc => no_misc_collision
      if kind_excluded then
        dynamicLoop entity_uid no_enemy_collision no_friend_collision no_misc_collision
          target_entity_id rest
      else
        other.hitbox ::
          dynamicLoop entity_uid no_enemy_collision no_friend_collision no_misc_collision
            target_entity_id rest

/-- `collect_dynamic_collision_hitboxes` (`entity.rs`). The `out` buffer is
cleared on entry in the source, so it is modelled as the returned list. -/
def collect_dynamic_collision_hitboxes (entity_flags : ℕ) (entity_uid : ℕ)
    (current_target : Option Target) (ctx : EntityContext) : List Rect :=
  if hasFlag entity_flags DEF_FLAG_NO_ENTITY_COLLISION then []
  else
    let no_enemy_collision := hasFlag entity_flags DEF_FLAG_NO_ENEMY_COLLISION
    let no_friend_collision := hasFlag entity_flags DEF_FLAG_NO_FRIEND_COLLISION
    let no_misc_collision := hasFlag entity_flags DEF_FLAG_NO_MISC_COLLISION
    let no_player_collision := hasFlag entity_flags DEF_FLAG_NO_PLAYER_COLLISION
    let target_entity_id : Option ℕ :=
      match current_target with
      | some (.entity target) => some target.id
      | _ => none
    let target_is_player : Bool :=
      match current_target with
      | some (.player _) => true
      | _ => false
    let playerPart : List Rect :=
      if !no_player_collision && !target_is_player then
        match ctx.player with
        | some player => [player.hitbox]
        | none => []
      else []
    playerPart ++
      dynamicLoop entity_uid no_enemy_collision no_friend_collision no_misc_collision
        target_entity_id ctx.entities

/-- `EntityInstance::apply_damage` (`entity.rs`): subtract, floored at zero;
non-positive amounts are ignored. -/
def apply_damage (inst : EntityInstance) (amount : ℚ) : EntityInstance :=
  if amount ≤ 0 then inst
  else { inst with hp := fmax (inst.hp - amount) 0 }

/-- `helpers::Axis`. -/
inductive Axis where
  | X
  | Y
deriving DecidableEq, Repr

/-- The `epsilon` of `resolve_collisions_axis` (`helpers.rs`). -/
def collisionEpsilon : ℚ := 1 / 1000

/-- The X-axis collider loop of `resolve_collisions_axis`: track whether any
collider overlaps the current world rect and the furthest push-back
candidate against the velocity direction. -/
def scanAxisX (hitbox : Rect) (rect : Rect) (vel_axis : ℚ) :
    List Rect → ℚ → Bool → ℚ × Bool
  | [], candidate, hit => (candidate, hit)
  | collider :: rest, candidate, hit =>
    if !rect.overlaps collider then scanAxisX hitbox rect vel_axis rest candidate hit
    else if vel_axis > 0 then
      let target := collider.x - hitbox.w - hitbox.x - collisionEpsilon
      scanAxisX hitbox rect vel_axis rest (if target < candidate then target else candidate) true
    else
      let target := collider.x + collider.w - hitbox.x + collisionEpsilon
      scanAxisX hitbox rect vel_axis rest (if target > candidate then target else candidate) true

/-- The Y-axis collider loop of `resolve_collisions_axis`. -/
def scanAxisY (hitbox : Rect) (rect : Rect) (vel_axis : ℚ) :
    List Rect → ℚ → Bool → ℚ × Bool
  | [], candidate, hit => (candidate, hit)
  | collider :: rest, candidate, hit =>
    if !rect.overlaps collider then scanAxisY hitbox rect vel_axis rest candidate hit
    else if vel_axis > 0 then
      let target := collider.y - hitbox.h - hitbox.y - collisionEpsilon
      scanAxisY hitbox rect vel_axis rest (if target < candidate then target else candidate) true
    else
      let target := collider.y + collider.h - hitbox.y + collisionEpsilon
      scanAxisY hitbox rect vel_axis rest (if target > candidate then target else candidate) true

/-- `helpers::resolve_collisions_axis`. -/
def resolve_collisions_axis (hitbox : Rect) (pos : Vec2) (vel_axis : ℚ)
    (colliders : List Rect) (axis : Axis) : Vec2 × ℚ :=
  if vel_axis = 0 then (pos, vel_axis)
  else
    let rect : Rect := ⟨pos.x + hitbox.x, pos.y + hitbox.y, hitbox.w, hitbox.h⟩
    match axis with
    | .X =>
      let s := scanAxisX hitbox rect vel_axis colliders pos.x false
      if s.2 then ({ pos with x := s.1 }, 0) else (pos, vel_axis)
    | .Y =>
      let s := scanAxisY hitbox rect vel_axis colliders pos.y false
      if s.2 then ({ pos with y := s.1 }, 0) else (pos, vel_axis)

/-- The `epsilon` of `resolve_entity_overlaps` (`main.rs`). -/
def overlapEpsilon : ℚ := 1 / 1000

/-- `blocks_kind` (`main.rs`). -/
def blocks_kind (flags : ℕ) (kind : EntityKind) : Bool :=
  match kind with
  | .enemy => hasFlag flags DEF_FLAG_NO_ENEMY_COLLISION
  | .friend => hasFlag flags DEF_FLAG_NO_FRIEND_COLLISION
  | .misc => hasFlag flags DEF_FLAG_NO_MISC_COLLISION

/-- `entities_should_collide` (`main.rs`), with the two definitions' flags
and kinds passed directly. -/
def entities_should_collide (a_flags b_flags : ℕ) (a_kind b_kind : EntityKind) : Bool :=
  if hasFlag a_flags DEF_FLAG_NO_ENTITY_COLLISION ||
      hasFlag b_flags DEF_FLAG_NO_ENTITY_COLLISION then false
  else !blocks_kind a_flags b_kind && !blocks_kind b_flags a_kind

/-- The pair-separation kernel of `resolve_entity_overlaps` (`main.rs`
lines 789-810): the position deltas applied to entity `i` and entity `j`,
or `none` when the world hitboxes do not strictly overlap. -/
def resolveOverlapPush (a_hb b_hb : Rect) : Option (Vec2 × Vec2) :=
  let overlap_x := fmin (a_hb.x + a_hb.w) (b_hb.x + b_hb.w) - fmax a_hb.x b_hb.x
  let overlap_y := fmin (a_hb.y + a_hb.h) (b_hb.y + b_hb.h) - fmax a_hb.y b_hb.y
  if overlap_x ≤ 0 ∨ overlap_y ≤ 0 then none
  else if overlap_x ≤ overlap_y then
    let a_center := a_hb.x + a_hb.w * (1 / 2)
    let b_center := b_hb.x + b_hb.w * (1 / 2)
    let sign : ℚ := if a_center ≤ b_center then -1 else 1
    let push := overlap_x * (1 / 2) + overlapEpsilon
    some (⟨sign * push, 0⟩, ⟨-(sign * push), 0⟩)
  else
    let a_center := a_hb.y + a_hb.h * (1 / 2)
    let b_center := b_hb.y + b_hb.h * (1 / 2)
    let sign : ℚ := if a_center ≤ b_center then -1 else 1
    let push := overlap_y * (1 / 2) + overlapEpsilon
    some (⟨0, sign * push⟩, ⟨0, -(sign * push)⟩)

/-- One correction pass of `resolve_entity_overlaps` specialised to exactly
two entities, before the border re-clamp (the claim's scenario is far
from the world border, where the clamp is the identity). The spatial
grid only decides which pairs are visited, and two overlapping hitboxes
always share a grid cell, so the single pair `(0, 1)` is visited. -/
def twoEntityOverlapPass (a_flags b_flags : ℕ) (a_kind b_kind : EntityKind)
    (a_hitbox b_hitbox : Rect) (p1 p2 : Vec2) : Vec2 × Vec2 :=
  let a_hb := world_hitbox a_hitbox p1
  let b_hb := world_hitbox b_hitbox p2
  if entities_should_collide a_flags b_flags a_kind b_kind then
    match resolveOverlapPush a_hb b_hb with
    | some d => (⟨p1.x + d.1.x, p1.y + d.1.y⟩, ⟨p2.x + d.2.x, p2.y + d.2.y⟩)
    | none => (p1, p2)
  else (p1, p2)

/-- Spec-side model for the (amended) dynamic-obstacle-gathering claim: if
the actor's flags include no-entity-collision the list is empty;
otherwise the player's hitbox is included unless the actor's
no-player-collision flag is set or the player is the current target,
followed by the hitbox of every other snapshot candidate (regardless of
its `alive` flag) that is not the current entity target and whose kind
is not excluded by the matching no-kind-collision flag. -/
def collectDynamicSpecModel (entity_flags : ℕ) (entity_uid : ℕ)
    (current_target : Option Target) (ctx : EntityContext) : List Rect :=
  if hasFlag entity_flags DEF_FLAG_NO_ENTITY_COLLISION then []
  else
    let target_entity_id : Option ℕ :=
      match current_target with
      | some (.entity target) => some target.id
      | _ => none
    let target_is_player : Bool :=
      match current_target with
      | some (.player _) => true
      | _ => false
    (if !hasFlag entity_flags DEF_FLAG_NO_PLAYER_COLLISION && !target_is_player then
      (ctx.player.map PlayerTarget.hitbox).toList
    else []) ++
      (ctx.entities.filter fun other =>
          other.id != entity_uid && !(target_entity_id == some other.id) &&
          !blocks_kind entity_flags other.kind).map EntityTarget.hitbox

theorem dynamicLoop_eq_filterMap (uid flags : ℕ) (tid : Option ℕ) (l : List EntityTarget) :
    dynamicLoop uid (hasFlag flags DEF_FLAG_NO_ENEMY_COLLISION)
      (hasFlag flags DEF_FLAG_NO_FRIEND_COLLISION)
      (hasFlag flags DEF_FLAG_NO_MISC_COLLISION) tid l =
    (l.filter fun other =>
        other.id != uid && !(tid == some other.id) && !blocks_kind flags other.kind).map
      EntityTarget.hitbox := by
  induction l with
  | nil => rfl
  | cons other rest ih =>
    have hkind : (match other.kind with
        | EntityKind.enemy => hasFlag flags DEF_FLAG_NO_ENEMY_COLLISION
        | EntityKind.friend => hasFlag flags DEF_FLAG_NO_FRIEND_COLLISION
        | EntityKind.misc => hasFlag flags DEF_FLAG_NO_MISC_COLLISION) =
        blocks_kind flags other.kind := by
      cases other.kind <;> rfl
    simp only [dynamicLoop, List.filter_cons, hkind]
    cases hb1 : (other.id == uid)
    · have h1 : ¬other.id = uid := by simpa using hb1
      cases hb2 : (tid == some other.id)
      · cases hb3 : blocks_kind flags other.kind
        · simp [hb1, h1, hb2, hb3, ih]
        · simp [hb1, h1, hb2, hb3, ih]
      · simp [hb1, h1, hb2, ih]
    · have h1 : other.id = uid := by simpa using hb1
      simp [hb1, h1, ih]

theorem dynamicLoop_filter_self (uid : ℕ) (ne nf nm : Bool) (tid : Option ℕ)
    (l : List EntityTarget) :
    dynamicLoop uid ne nf nm tid (l.filter fun c => c.id != uid) =
      dynamicLoop uid ne nf nm tid l := by
  induction l with
  | nil => rfl
  | cons other rest ih =>
    rw [List.filter_cons]
    cases hb1 : (other.id == uid)
    · have hf : (other.id != uid) = true := by simp [bne, hb1]
      rw [hf, if_pos rfl]
      simp only [dynamicLoop, hb1, Bool.false_eq_true, if_false]
      rw [ih]
    · have hf : (other.id != uid) = false := by simp [bne, hb1]
      rw [hf]
      simp only [Bool.false_eq_true, if_false]
      rw [ih]
      simp [dynamicLoop, hb1]

/-- C2 counterexample: `collect_dynamic_collision_hitboxes` performs no
liveness check, so a snapshot candidate whose `alive` flag is `false`
still contributes its hitbox to the gathered dynamic obstacle list
(actor flags empty, no player, candidate not the target). -/
theorem collect_dynamic_dead_counterexample :
    (⟨2, 0, .enemy, ⟨0, 0⟩, ⟨1, 2, 3, 4⟩, false⟩ : EntityTarget).alive = false ∧
    collect_dynamic_collision_hitboxes 0 1 none
        ⟨none, none, [⟨2, 0, .enemy, ⟨0, 0⟩, ⟨1, 2, 3, 4⟩, false⟩], [], 1, []⟩ =
      [(⟨2, 0, .enemy, ⟨0, 0⟩, ⟨1, 2, 3, 4⟩, false⟩ : EntityTarget).hitbox] := by
  exact ⟨rfl, rfl⟩

/-- C2 (amended): if the actor's flags include no-entity-collision the
dynamic obstacle list is empty; otherwise the player's hitbox is
included unless the actor's no-player-collision flag is set or the
player is the current target, and every other snapshot candidate's
hitbox is included unless it is the current entity target or its kind is
excluded by the matching no-kind-collision flag — the candidate's
`alive` flag is not consulted. -/
theorem collect_dynamic_spec (entity_flags entity_uid : ℕ)
    (current_target : Option Target) (ctx : EntityContext) :
    collect_dynamic_collision_hitboxes entity_flags entity_uid current_target ctx =
      collectDynamicSpecModel entity_flags entity_uid current_target ctx := by
  simp only [collect_dynamic_collision_hitboxes, collectDynamicSpecModel]
  cases hno : hasFlag entity_flags DEF_FLAG_NO_ENTITY_COLLISION
  · simp only [Bool.false_eq_true, if_false]
    congr 1
    · cases ctx.player <;> simp
    · exact dynamicLoop_eq_filterMap entity_uid entity_flags _ ctx.entities
  · simp

/-- C10: the dynamic obstacle list gathered for an actor's own update never
contains the actor itself: removing every snapshot candidate whose id
equals the updating actor's uid leaves the gathered list unchanged, for
all flags and targets. -/
theorem collect_dynamic_skips_self (entity_flags entity_uid : ℕ)
    (current_target : Option Target) (ctx : EntityContext) :
    collect_dynamic_collision_hitboxes entity_flags entity_uid current_target
        { ctx with entities := ctx.entities.filter fun c => c.id != entity_uid } =
      collect_dynamic_collision_hitboxes entity_flags entity_uid current_target ctx := by
  simp only [collect_dynamic_collision_hitboxes]
  cases hno : hasFlag entity_flags DEF_FLAG_NO_ENTITY_COLLISION
  · simp only [Bool.false_eq_true, if_false]
    congr 1
    exact dynamicLoop_filter_self entity_uid _ _ _ _ ctx.entities
  · simp

/-- C9: `apply_damage` with a positive amount subtracts it from health
floored at zero and changes no other field; a non-positive amount leaves
the actor unchanged; from non-negative health it never increases
health. -/
theorem apply_damage_spec (inst : EntityInstance) (amount : ℚ) :
    (0 < amount →
      apply_damage inst amount = { inst with hp := max (inst.hp - amount) 0 }) ∧
    (amount ≤ 0 → apply_damage inst amount = inst) ∧
    (0 ≤ inst.hp → (apply_damage inst amount).hp ≤ inst.hp) := by
  refine ⟨?_, ?_, ?_⟩
  · intro h
    unfold apply_damage
    rw [if_neg (by linarith), fmax_eq_max]
  · intro h
    unfold apply_damage
    rw [if_pos h]
  · intro h
    unfold apply_damage
    split
    · exact le_refl _
    · rename_i hneg
      push_neg at hneg
      have hle : max (inst.hp - amount) 0 ≤ inst.hp := max_le (by linarith) h
      simpa [fmax_eq_max] using hle

theorem apply_damage_spec_witness :
    (0 : ℚ) < 2 ∧
    apply_damage ⟨7, ⟨0, 0⟩, ⟨0, 0⟩, 1, ⟨[]⟩, 5, 5, none, 0⟩ 2 =
      { (⟨7, ⟨0, 0⟩, ⟨0, 0⟩, 1, ⟨[]⟩, 5, 5, none, 0⟩ : EntityInstance) with
        hp := max (5 - 2) 0 } :=
  ⟨by norm_num, (apply_damage_spec ⟨7, ⟨0, 0⟩, ⟨0, 0⟩, 1, ⟨[]⟩, 5, 5, none, 0⟩ 2).1
    (by norm_num)⟩

/-- C3: with at least one specific kind bit set, a candidate kind is
eligible exactly when its own bit is set (the any-entity bit does not
widen it); with no specific bit but the any-entity bit set, every kind
is eligible; the contact-damage kind check applies the identical rule;
and an actor with only `target_nearest_enemy`, offered a friend at
distance 1 and an enemy at distance 10, resolves its target to the
enemy. -/
theorem kind_eligibility_spec (def_flags : ℕ) :
    ((hasFlag def_flags DEF_FLAG_TARGET_NEAREST_ENEMY ||
      hasFlag def_flags DEF_FLAG_TARGET_NEAREST_FRIEND ||
      hasFlag def_flags DEF_FLAG_TARGET_NEAREST_MISC) = true →
      is_kind_targetable def_flags .enemy = hasFlag def_flags DEF_FLAG_TARGET_NEAREST_ENEMY ∧
      is_kind_targetable def_flags .friend = hasFlag def_flags DEF_FLAG_TARGET_NEAREST_FRIEND ∧
      is_kind_targetable def_flags .misc = hasFlag def_flags DEF_FLAG_TARGET_NEAREST_MISC) ∧
    ((hasFlag def_flags DEF_FLAG_TARGET_NEAREST_ENEMY ||
      hasFlag def_flags DEF_FLAG_TARGET_NEAREST_FRIEND ||
      hasFlag def_flags DEF_FLAG_TARGET_NEAREST_MISC) = false →
      hasFlag def_flags DEF_FLAG_TARGET_NEAREST_ENTITY = true →
      ∀ kind, is_kind_targetable def_flags kind = true) ∧
    (∀ kind, contactKindOk def_flags kind = is_kind_targetable def_flags kind) ∧
    (resolve_target
        ⟨none, none,
          [⟨2, 0, .friend, ⟨1, 0⟩, ⟨0, 0, 1, 1⟩, true⟩,
           ⟨3, 0, .enemy, ⟨10, 0⟩, ⟨0, 0, 1, 1⟩, true⟩], [], 1, []⟩
        DEF_FLAG_TARGET_NEAREST_ENEMY
        ⟨100, ⟨0, 0⟩, ⟨0, 0⟩, 1, ⟨[]⟩, 1, 1, none, 0⟩).1 =
      some (.entity ⟨3, 0, .enemy, ⟨10, 0⟩, ⟨0, 0, 1, 1⟩, true⟩) := by
  refine ⟨?_, ?_, ?_, ?_⟩
  · intro h
    refine ⟨?_, ?_, ?_⟩ <;> simp [is_kind_targetable, h]
  · intro h hany kind
    have h3 := h
    simp only [Bool.or_eq_false_iff] at h3
    cases kind <;> simp [is_kind_targetable, h3.1.1, h3.1.2, h3.2, hany]
  · intro kind
    cases kind <;> rfl
  · decide

theorem kind_eligibility_spec_witness :
    ((hasFlag DEF_FLAG_TARGET_NEAREST_ENEMY DEF_FLAG_TARGET_NEAREST_ENEMY ||
      hasFlag DEF_FLAG_TARGET_NEAREST_ENEMY DEF_FLAG_TARGET_NEAREST_FRIEND ||
      hasFlag DEF_FLAG_TARGET_NEAREST_ENEMY DEF_FLAG_TARGET_NEAREST_MISC) = true) ∧
    is_kind_targetable DEF_FLAG_TARGET_NEAREST_ENEMY .friend =
      hasFlag DEF_FLAG_TARGET_NEAREST_ENEMY DEF_FLAG_TARGET_NEAREST_FRIEND :=
  ⟨by decide,
    ((kind_eligibility_spec DEF_FLAG_TARGET_NEAREST_ENEMY).1 (by decide)).2.1⟩

/-- C5: with no forced target, no target-player flag and a nonzero mask: a
cache hit recording "no target" returns none with the cache unchanged,
independently of the candidate list (no rescan); a cache hit holding an
entity target for which no live, still-eligible snapshot candidate of
that id exists falls through to the full nearest scan, and the scan's
result — an explicit "none" included — is written back to the cache. -/
theorem resolve_target_cache_spec (ctx : EntityContext) (def_flags : ℕ)
    (entity : EntityInstance)
    (hforced : ctx.target = none)
    (hplayer : hasFlag def_flags DEF_FLAG_TARGET_PLAYER = false)
    (hmask : targetMask def_flags ≠ 0) :
    (cacheLookup ctx.target_cache (entity.uid, targetMask def_flags) = some none →
      resolve_target ctx def_flags entity = (none, ctx.target_cache) ∧
      ∀ es : List EntityTarget,
        resolve_target { ctx with entities := es } def_flags entity =
          (none, ctx.target_cache)) ∧
    (∀ cached_target : EntityTarget,
      cacheLookup ctx.target_cache (entity.uid, targetMask def_flags) =
        some (some cached_target) →
      ctx.entities.find? (fun candidate =>
          candidate.id == cached_target.id && candidate.alive &&
          is_kind_targetable def_flags candidate.kind) = none →
      resolve_target ctx def_flags entity =
        (((scanNearest def_flags entity ctx.entities none).map Prod.snd).map Target.entity,
         cacheInsert ctx.target_cache (entity.uid, targetMask def_flags)
           ((scanNearest def_flags entity ctx.entities none).map Prod.snd))) := by
  constructor
  · intro hhit
    constructor
    · simp only [resolve_target, hforced, hplayer, Bool.false_eq_true, if_false]
      rw [if_neg hmask]
      rw [hhit]
    · intro es
      simp only [resolve_target, hforced, hplayer, Bool.false_eq_true, if_false]
      rw [if_neg hmask]
      have : ({ ctx with entities := es } : EntityContext).target_cache = ctx.target_cache := rfl
      rw [this, hhit]
  · intro cached_target hhit hdead
    simp only [resolve_target, hforced, hplayer, Bool.false_eq_true, if_false]
    rw [if_neg hmask]
    rw [hhit]
    simp only [hdead]

theorem resolve_target_cache_spec_witness :
    cacheLookup [((5, 1), none)] (5, targetMask DEF_FLAG_TARGET_NEAREST_ENTITY) =
      some none ∧
    resolve_target
        ⟨none, none, [⟨9, 0, .enemy, ⟨1, 1⟩, ⟨0, 0, 1, 1⟩, true⟩], [((5, 1), none)], 1, []⟩
        DEF_FLAG_TARGET_NEAREST_ENTITY
        ⟨5, ⟨0, 0⟩, ⟨0, 0⟩, 1, ⟨[]⟩, 1, 1, none, 0⟩ =
      (none, [((5, 1), none)]) :=
  ⟨by decide,
    ((resolve_target_cache_spec
        ⟨none, none, [⟨9, 0, .enemy, ⟨1, 1⟩, ⟨0, 0, 1, 1⟩, true⟩, ], [((5, 1), none)], 1, []⟩
        DEF_FLAG_TARGET_NEAREST_ENTITY
        ⟨5, ⟨0, 0⟩, ⟨0, 0⟩, 1, ⟨[]⟩, 1, 1, none, 0⟩
        rfl (by decide) (by decide)).1 (by decide)).1⟩

theorem evalChildren_eq_map (entity : EntityInstance) (ctx : EntityContext)
    (l : List BehaviorNode) :
    evalChildren entity ctx l = l.map (eval_behavior entity ctx) := by
  induction l with
  | nil => rfl
  | cons c rest ih => simp [evalChildren, ih]

theorem seqGo_fail :
    ∀ (rs : List EvalResult) (acc : Option SelectedAction) (accm : List SelectedAction),
      (∃ r ∈ rs, r.2.2 = false) → seqGo acc accm rs = (none, [], false)
  | [], _, _, h => by simp at h
  | (a, m, o) :: rest, acc, accm, h => by
    cases o
    · simp [seqGo]
    · rcases h with ⟨r, hmem, hfalse⟩
      rcases List.mem_cons.mp hmem with h1 | h2
      · rw [h1] at hfalse
        simp at hfalse
      · rw [show seqGo acc accm ((a, m, true) :: rest) =
            seqGo (if a.isSome then a else acc) (accm ++ m) rest from by simp [seqGo]]
        exact seqGo_fail rest _ _ ⟨r, h2, hfalse⟩

theorem seqGo_ok :
    ∀ (rs : List EvalResult) (acc : Option SelectedAction) (accm : List SelectedAction),
      (∀ r ∈ rs, r.2.2 = true) →
      seqGo acc accm rs =
        (((rs.filterMap Prod.fst).reverse.head?).or acc,
         accm ++ (rs.map (fun r => r.2.1)).flatten, true)
  | [], acc, accm, _ => by simp [seqGo]
  | (a, m, o) :: rest, acc, accm, h => by
    have ho : o = true := by simpa using h (a, m, o) (List.mem_cons_self _ _)
    subst ho
    have hrest : ∀ r ∈ rest, r.2.2 = true := fun r hr => h r (List.mem_cons_of_mem _ hr)
    rw [show seqGo acc accm ((a, m, true) :: rest) =
        seqGo (if a.isSome then a else acc) (accm ++ m) rest from by simp [seqGo]]
    rw [seqGo_ok rest _ _ hrest]
    cases a with
    | none =>
      have hfm : ((none, m, true) :: rest).filterMap
          (Prod.fst : EvalResult → Option SelectedAction) = rest.filterMap Prod.fst := by
        simp [List.filterMap_cons]
      have h1 : (if (none : Option SelectedAction).isSome then none else acc) = acc := rfl
      rw [hfm, h1, List.map_cons, List.flatten_cons, ← List.append_assoc]
    | some v =>
      have hfm : ((some v, m, true) :: rest).filterMap
          (Prod.fst : EvalResult → Option SelectedAction) =
          v :: rest.filterMap Prod.fst := by
        simp [List.filterMap_cons]
      have h1 : (if (some v : Option SelectedAction).isSome then some v else acc) = some v :=
        rfl
      rw [hfm, h1, List.reverse_cons, List.head?_append, List.head?_cons]
      have h2 : ((rest.filterMap
          (Prod.fst : EvalResult → Option SelectedAction)).reverse.head?.or (some v)).or acc =
          (rest.filterMap
            (Prod.fst : EvalResult → Option SelectedAction)).reverse.head?.or (some v) := by
        cases (rest.filterMap (Prod.fst : EvalResult → Option SelectedAction)).reverse.head? <;>
          rfl
      rw [h2, List.map_cons, List.flatten_cons, ← List.append_assoc]

theorem selGo_spec :
    ∀ (rs : List EvalResult) (primary : Option SelectedAction)
      (accm : List SelectedAction) (any_ok : Bool),
      selGo primary accm any_ok rs =
        (primary.or (((rs.filter fun r => r.2.2).filterMap Prod.fst).head?),
         accm ++ ((rs.filter fun r => r.2.2).map (fun r => r.2.1)).flatten,
         any_ok || rs.any fun r => r.2.2)
  | [], primary, accm, any_ok => by simp [selGo]
  | (a, m, o) :: rest, primary, accm, any_ok => by
    cases o
    · rw [show selGo primary accm any_ok ((a, m, false) :: rest) =
          selGo primary accm any_ok rest from by simp [selGo]]
      rw [selGo_spec rest primary accm any_ok]
      simp [List.filter_cons]
    · rw [show selGo primary accm any_ok ((a, m, true) :: rest) =
          selGo (if primary.isNone then a else primary) (accm ++ m) true rest from by
            simp [selGo]]
      rw [selGo_spec rest _ _ true]
      cases primary <;> cases a <;>
        simp [List.filter_cons, List.filterMap_cons, Option.or, List.append_assoc]

theorem paramsEq_refl (p : MovementParams) : paramsEq p p = true := by
  simp [paramsEq, List.all_eq_true]

theorem actionDup_refl (a : SelectedAction) : actionDup a a = true := by
  simp [actionDup, paramsEq_refl]

theorem foldl_pushDedup_append :
    ∀ (l : List SelectedAction) (out : List SelectedAction),
      ∃ extra, l.foldl pushDedup out = out ++ extra
  | [], out => ⟨[], by simp⟩
  | a :: rest, out => by
    obtain ⟨extra, hextra⟩ := foldl_pushDedup_append rest (pushDedup out a)
    rw [List.foldl_cons, hextra]
    unfold pushDedup
    split
    · exact ⟨extra, rfl⟩
    · exact ⟨[a] ++ extra, by simp⟩

theorem pairwise_foldl_pushDedup :
    ∀ (l : List SelectedAction) (out : List SelectedAction),
      List.Pairwise (fun a b => actionDup a b = false) out →
      List.Pairwise (fun a b => actionDup a b = false) (l.foldl pushDedup out)
  | [], _, h => h
  | a :: rest, out, h => by
    rw [List.foldl_cons]
    refine pairwise_foldl_pushDedup rest _ ?_
    unfold pushDedup
    split
    · exact h
    · rename_i hany
      have hany2 : out.any (fun existing => actionDup existing a) = false := by
        simpa using hany
      rw [List.pairwise_append]
      refine ⟨h, List.pairwise_singleton _ _, ?_⟩
      intro x hx b hb
      rw [List.mem_singleton] at hb
      subst hb
      have := List.any_eq_false.mp hany2 x hx
      simpa using this

theorem mem_foldl_pushDedup_origin :
    ∀ (l : List SelectedAction) (out : List SelectedAction) (b : SelectedAction),
      b ∈ l.foldl pushDedup out → b ∈ out ∨ b ∈ l
  | [], _, b, h => Or.inl h
  | a :: rest, out, b, h => by
    rw [List.foldl_cons] at h
    rcases mem_foldl_pushDedup_origin rest _ b h with h1 | h2
    · unfold pushDedup at h1
      split at h1
      · exact Or.inl h1
      · rcases List.mem_append.mp h1 with h3 | h4
        · exact Or.inl h3
        · exact Or.inr (List.mem_cons.mpr (Or.inl (List.mem_singleton.mp h4)))
    · exact Or.inr (List.mem_cons_of_mem _ h2)

theorem represented_foldl_pushDedup :
    ∀ (l : List SelectedAction) (out : List SelectedAction) (a : SelectedAction),
      a ∈ l → ∃ b ∈ l.foldl pushDedup out, actionDup b a = true
  | [], _, a, h => by simp at h
  | c :: rest, out, a, h => by
    rw [List.foldl_cons]
    rcases List.mem_cons.mp h with h1 | h2
    · subst h1
      cases hany : out.any fun existing => actionDup existing a
      · have hout : pushDedup out a = out ++ [a] := by
          unfold pushDedup
          rw [hany]
          simp
        obtain ⟨extra, hextra⟩ := foldl_pushDedup_append rest (pushDedup out a)
        refine ⟨a, ?_, actionDup_refl a⟩
        rw [hextra, hout]
        simp
      · obtain ⟨x, hx, hdup⟩ := List.any_eq_true.mp hany
        obtain ⟨extra, hextra⟩ := foldl_pushDedup_append rest (pushDedup out a)
        have hxout : x ∈ pushDedup out a := by
          unfold pushDedup
          rw [hany]
          simpa using hx
        exact ⟨x, by rw [hextra]; exact List.mem_append.mpr (Or.inl hxout), hdup⟩
    · exact represented_foldl_pushDedup rest _ a h2

/-- A minimal concrete actor used by the concrete behavior-tree scenarios
(no target, so `target_in_range` evaluates to false). -/
def inst0 : EntityInstance := ⟨0, ⟨0, 0⟩, ⟨0, 0⟩, 0, ⟨[]⟩, 1, 1, none, 0⟩

/-- A minimal concrete frame context for the same scenarios. -/
def ctx0 : EntityContext := ⟨none, none, [], [], 1, []⟩

/-- C6: a `Sequence` with any failing child (in particular a failing
condition) fails as a whole and produces no primary and no secondary
actions, and its `select_actions` output is empty; when every child
succeeds, the primary is the last child primary produced (later children
override earlier ones) and the secondary actions of all children
accumulate in order. -/
theorem sequence_eval_spec (entity : EntityInstance) (ctx : EntityContext)
    (children : List BehaviorNode) :
    ((∃ r ∈ children.map (eval_behavior entity ctx), r.2.2 = false) →
      eval_behavior entity ctx (.sequence children) = (none, [], false) ∧
      select_actions (.sequence children) entity ctx = []) ∧
    ((∀ r ∈ children.map (eval_behavior entity ctx), r.2.2 = true) →
      eval_behavior entity ctx (.sequence children) =
        (((children.map (eval_behavior entity ctx)).filterMap Prod.fst).getLast?,
         ((children.map (eval_behavior entity ctx)).map (fun r => r.2.1)).flatten,
         true)) := by
  have hunfold : eval_behavior entity ctx (.sequence children) =
      seqGo none [] (children.map (eval_behavior entity ctx)) := by
    rw [show eval_behavior entity ctx (.sequence children) =
        seqGo none [] (evalChildren entity ctx children) from rfl, evalChildren_eq_map]
  constructor
  · intro h
    have heval : eval_behavior entity ctx (.sequence children) = (none, [], false) := by
      rw [hunfold]
      exact seqGo_fail _ _ _ h
    refine ⟨heval, ?_⟩
    simp [select_actions, heval]
  · intro h
    rw [hunfold, seqGo_ok _ _ _ h, List.getLast?_eq_head?_reverse]
    simp

theorem sequence_eval_spec_witness :
    (∃ r ∈ [BehaviorNode.condition "target_in_range" none,
        BehaviorNode.action "a" false [] []].map (eval_behavior inst0 ctx0),
      r.2.2 = false) ∧
    eval_behavior inst0 ctx0
        (.sequence [.condition "target_in_range" none, .action "a" false [] []]) =
      (none, [], false) :=
  ⟨by decide,
    ((sequence_eval_spec inst0 ctx0
        [.condition "target_in_range" none, .action "a" false [] []]).1 (by decide)).1⟩

/-- C1 counterexample: in this `Selector`, the first successful child (in
order) is the empty `Sequence`, which succeeds producing no primary
action — yet the selector's primary action is the later child's action,
not the first successful child's (non-existent) primary. -/
theorem selector_first_success_counterexample :
    (eval_behavior inst0 ctx0 (.sequence [])).2.2 = true ∧
    (eval_behavior inst0 ctx0 (.sequence [])).1 = none ∧
    (eval_behavior inst0 ctx0
        (.selector [.sequence [], .action "a" false [] []])).1 =
      some ⟨"a", []⟩ := by
  decide

/-- C1 (amended): a `Selector` succeeds iff some child succeeds; its
primary action is the first non-empty primary among successful children
in order (successful children producing no primary are skipped, instead
of pinning the primary to the first successful child); secondary actions
accumulate from every successful child; and `select_actions`
deduplicates by (name, parameter table): its entries are pairwise
non-duplicate, every collected secondary is represented, every entry
originates from the primary or a secondary, and the primary stays in
front. -/
theorem selector_eval_spec (entity : EntityInstance) (ctx : EntityContext)
    (children : List BehaviorNode) :
    (eval_behavior entity ctx (.selector children)).2.2 =
      (children.map (eval_behavior entity ctx)).any (fun r => r.2.2) ∧
    (eval_behavior entity ctx (.selector children)).1 =
      (((children.map (eval_behavior entity ctx)).filter fun r => r.2.2).filterMap
        Prod.fst).head? ∧
    (eval_behavior entity ctx (.selector children)).2.1 =
      (((children.map (eval_behavior entity ctx)).filter fun r => r.2.2).map
        (fun r => r.2.1)).flatten ∧
    List.Pairwise (fun a b => actionDup a b = false)
      (select_actions (.selector children) entity ctx) ∧
    (∀ a ∈ (eval_behavior entity ctx (.selector children)).2.1,
      ∃ b ∈ select_actions (.selector children) entity ctx, actionDup b a = true) ∧
    (∀ b ∈ select_actions (.selector children) entity ctx,
      (eval_behavior entity ctx (.selector children)).1 = some b ∨
      b ∈ (eval_behavior entity ctx (.selector children)).2.1) ∧
    (∀ p, (eval_behavior entity ctx (.selector children)).1 = some p →
      (select_actions (.selector children) entity ctx).head? = some p) := by
  have heval : eval_behavior entity ctx (.selector children) =
      ((((children.map (eval_behavior entity ctx)).filter fun r => r.2.2).filterMap
          Prod.fst).head?,
       (((children.map (eval_behavior entity ctx)).filter fun r => r.2.2).map
          (fun r => r.2.1)).flatten,
       (children.map (eval_behavior entity ctx)).any fun r => r.2.2) := by
    rw [show eval_behavior entity ctx (.selector children) =
        selGo none [] false (evalChildren entity ctx children) from rfl,
      evalChildren_eq_map, selGo_spec]
    simp
  have hout : select_actions (.selector children) entity ctx =
      (if (children.map (eval_behavior entity ctx)).any (fun r => r.2.2) then
        ((((children.map (eval_behavior entity ctx)).filter fun r => r.2.2).map
            (fun r => r.2.1)).flatten).foldl pushDedup
          (match (((children.map (eval_behavior entity ctx)).filter fun r =>
              r.2.2).filterMap Prod.fst).head? with
            | some primary => [primary]
            | none => [])
      else []) := by
    simp only [select_actions, heval]
  refine ⟨by rw [heval], by rw [heval], by rw [heval], ?_, ?_, ?_, ?_⟩
  · rw [hout]
    cases hany : (children.map (eval_behavior entity ctx)).any fun r => r.2.2
    · simp
    · simp only [if_pos rfl]
      refine pairwise_foldl_pushDedup _ _ ?_
      split
      · exact List.pairwise_singleton _ _
      · exact List.Pairwise.nil
  · intro a ha
    rw [heval] at ha
    rw [hout]
    cases hany : (children.map (eval_behavior entity ctx)).any fun r => r.2.2
    · exfalso
      have : ((children.map (eval_behavior entity ctx)).filter fun r => r.2.2) = [] := by
        rw [List.filter_eq_nil_iff]
        intro r hr
        have := List.any_eq_false.mp hany r hr
        simpa using this
      rw [this] at ha
      simp at ha
    · simp only [if_pos rfl]
      exact represented_foldl_pushDedup _ _ a ha
  · intro b hb
    rw [hout] at hb
    rw [heval]
    cases hany : (children.map (eval_behavior entity ctx)).any fun r => r.2.2
    · rw [hany] at hb
      simp at hb
    · rw [hany] at hb
      simp only [if_pos rfl] at hb
      rcases mem_foldl_pushDedup_origin _ _ b hb with h1 | h2
      · left
        revert h1
        split
        · rename_i p hp
          intro h1
          rw [List.mem_singleton] at h1
          subst h1
          exact hp
        · intro h1
          simp at h1
      · right
        exact h2
  · intro p hp
    rw [heval] at hp
    have hp2 : (((children.map (eval_behavior entity ctx)).filter fun r =>
        r.2.2).filterMap Prod.fst).head? = some p := hp
    rw [hout]
    have hany : (children.map (eval_behavior entity ctx)).any (fun r => r.2.2) = true := by
      by_contra hc
      have hfalse : (children.map (eval_behavior entity ctx)).any (fun r => r.2.2) = false := by
        simpa using hc
      have hnil : ((children.map (eval_behavior entity ctx)).filter fun r => r.2.2) = [] := by
        rw [List.filter_eq_nil_iff]
        intro r hr
        have := List.any_eq_false.mp hfalse r hr
        simpa using this
      rw [hnil] at hp2
      simp at hp2
    rw [hany, if_pos rfl]
    obtain ⟨extra, hextra⟩ := foldl_pushDedup_append
      ((((children.map (eval_behavior entity ctx)).filter fun r => r.2.2).map
        (fun r => r.2.1)).flatten)
      (match (((children.map (eval_behavior entity ctx)).filter fun r =>
          r.2.2).filterMap Prod.fst).head? with
        | some primary => [primary]
        | none => [])
    rw [hextra, hp2]
    simp

theorem contactFrameStep_cases (def_flags : ℕ) (def_hitbox : Rect) (stats : StatBlock)
    (cooldown : ℚ) (f : ContactFrame) :
    contactFrameStep def_flags def_hitbox stats cooldown f =
      ((if cooldown > 0 then fmax (cooldown - f.dt) 0 else cooldown), []) ∨
    ∃ target, f.target = some target ∧
      contactFrameStep def_flags def_hitbox stats cooldown f =
        (3 / 10, [⟨stats.get "damage" 0, target⟩]) ∧
      ¬stats.get "damage" 0 ≤ 0 ∧
      ¬(if cooldown > 0 then fmax (cooldown - f.dt) 0 else cooldown) > 0 ∧
      ∃ thb, contact_target_hitbox def_flags (frameCtx f) target = some thb ∧
        (world_hitbox def_hitbox f.pos).overlaps thb = true := by
  unfold contactFrameStep apply_contact_damage
  dsimp only
  set cd1 := if cooldown > 0 then fmax (cooldown - f.dt) 0 else cooldown with hcd1
  split
  · left; rfl
  · rename_i h1
    cases hT : f.target with
    | none => left; rfl
    | some target =>
      dsimp only
      cases hH : contact_target_hitbox def_flags (frameCtx f) target with
      | none => left; rfl
      | some thb =>
        dsimp only
        split
        · rename_i hov
          right
          exact ⟨target, rfl, rfl, (not_or.mp h1).1, (not_or.mp h1).2, thb, hH, hov⟩
        · left; rfl

theorem contactFrameStep_cd_lower (def_flags : ℕ) (def_hitbox : Rect) (stats : StatBlock)
    (cooldown : ℚ) (f : ContactFrame) (c : ℚ) (hdt : 0 ≤ f.dt)
    (hc3 : c ≤ 3 / 10) (hccd : c ≤ cooldown) :
    c - f.dt ≤ (contactFrameStep def_flags def_hitbox stats cooldown f).1 := by
  rcases contactFrameStep_cases def_flags def_hitbox stats cooldown f with hc | ⟨t, _, hstep, _⟩
  · rw [hc]
    dsimp only
    split
    · rw [fmax_eq_max]
      exact le_trans (by linarith) (le_max_left _ _)
    · linarith
  · rw [hstep]
    dsimp only
    linarith

theorem runContact_cd_lower (def_flags : ℕ) (def_hitbox : Rect) (stats : StatBlock) :
    ∀ (mid : List ContactFrame) (cooldown c : ℚ),
      (∀ g ∈ mid, 0 ≤ g.dt) → c ≤ 3 / 10 → c ≤ cooldown →
      c - (mid.map ContactFrame.dt).sum ≤
        (runContact def_flags def_hitbox stats cooldown mid).1
  | [], cooldown, c, _, _, hcd => by
    simpa [runContact] using hcd
  | g :: rest, cooldown, c, hdt, hc3, hcd => by
    have hg : 0 ≤ g.dt := hdt g (List.mem_cons_self _ _)
    have h1 : c - g.dt ≤ (contactFrameStep def_flags def_hitbox stats cooldown g).1 :=
      contactFrameStep_cd_lower def_flags def_hitbox stats cooldown g c hg hc3 hcd
    have h2 := runContact_cd_lower def_flags def_hitbox stats rest
      (contactFrameStep def_flags def_hitbox stats cooldown g).1 (c - g.dt)
      (fun x hx => hdt x (List.mem_cons_of_mem _ hx)) (by linarith) h1
    rw [show (runContact def_flags def_hitbox stats cooldown (g :: rest)).1 =
        (runContact def_flags def_hitbox stats
          (contactFrameStep def_flags def_hitbox stats cooldown g).1 rest).1 from by
      simp [runContact]]
    simp only [List.map_cons, List.sum_cons]
    linarith

/-- C4: a `DamageEvent` is emitted by a contact-damage frame only when the
damage stat is positive, the decremented cooldown has expired, and the
resolved target's contact hitbox (player-flag, liveness and
kind-eligibility checks included) overlaps the actor's world hitbox; the
emitted event carries the damage stat and the target, and emission
resets the cooldown to 0.3; consequently two emissions are always
separated by at least 0.3 simulated seconds of frame time; and in the
concrete scenario (damage 5, overlapping player target, 1/60s frames,
cooldown 0) exactly one event of amount 5 is emitted on the first frame
and none on the following two. -/
theorem contact_damage_gate_spec :
    (∀ (def_flags : ℕ) (def_hitbox : Rect) (stats : StatBlock) (cooldown : ℚ)
        (f : ContactFrame),
      (contactFrameStep def_flags def_hitbox stats cooldown f).2 ≠ [] →
      0 < stats.get "damage" 0 ∧
      ¬(if cooldown > 0 then fmax (cooldown - f.dt) 0 else cooldown) > 0 ∧
      (∃ target, f.target = some target ∧
        (contactFrameStep def_flags def_hitbox stats cooldown f).2 =
          [⟨stats.get "damage" 0, target⟩] ∧
        ∃ thb, contact_target_hitbox def_flags (frameCtx f) target = some thb ∧
          (world_hitbox def_hitbox f.pos).overlaps thb = true) ∧
      (contactFrameStep def_flags def_hitbox stats cooldown f).1 = 3 / 10) ∧
    (∀ (def_flags : ℕ) (def_hitbox : Rect) (stats : StatBlock) (cooldown : ℚ)
        (fi : ContactFrame) (mid : List ContactFrame) (fj : ContactFrame),
      (∀ g ∈ mid, 0 ≤ g.dt) → 0 ≤ fj.dt →
      (contactFrameStep def_flags def_hitbox stats cooldown fi).2 ≠ [] →
      (contactFrameStep def_flags def_hitbox stats
          (runContact def_flags def_hitbox stats
            (contactFrameStep def_flags def_hitbox stats cooldown fi).1 mid).1 fj).2 ≠ [] →
      3 / 10 ≤ fj.dt + (mid.map ContactFrame.dt).sum) ∧
    (runContact DEF_FLAG_TARGET_PLAYER ⟨0, 0, 10, 10⟩ ⟨[("damage", 5)]⟩ 0
        [⟨1/60, ⟨0, 0⟩, some (.player ⟨⟨5, 5⟩, ⟨5, 5, 4, 4⟩⟩), some ⟨⟨5, 5⟩, ⟨5, 5, 4, 4⟩⟩, []⟩,
         ⟨1/60, ⟨0, 0⟩, some (.player ⟨⟨5, 5⟩, ⟨5, 5, 4, 4⟩⟩), some ⟨⟨5, 5⟩, ⟨5, 5, 4, 4⟩⟩, []⟩,
         ⟨1/60, ⟨0, 0⟩, some (.player ⟨⟨5, 5⟩, ⟨5, 5, 4, 4⟩⟩),
           some ⟨⟨5, 5⟩, ⟨5, 5, 4, 4⟩⟩, []⟩]).2 =
      [[⟨5, .player ⟨⟨5, 5⟩, ⟨5, 5, 4, 4⟩⟩⟩], [], []] := by
  refine ⟨?_, ?_, by with_unfolding_all decide⟩
  · intro def_flags def_hitbox stats cooldown f h
    rcases contactFrameStep_cases def_flags def_hitbox stats cooldown f with
      hc | ⟨target, hT, hstep, hd, hcd, thb, hth, hov⟩
    · rw [hc] at h
      simp at h
    · push_neg at hd
      refine ⟨hd, hcd, ⟨target, hT, ?_, thb, hth, hov⟩, ?_⟩
      · rw [hstep]
      · rw [hstep]
  · intro def_flags def_hitbox stats cooldown fi mid fj hmid hdtj hemit_i hemit_j
    rcases contactFrameStep_cases def_flags def_hitbox stats cooldown fi with
      hci | ⟨ti, hTi, hstepi, _⟩
    · rw [hci] at hemit_i
      simp at hemit_i
    · have hcd_i : (contactFrameStep def_flags def_hitbox stats cooldown fi).1 = 3 / 10 := by
        rw [hstepi]
      have hlower : (3 : ℚ) / 10 - (mid.map ContactFrame.dt).sum ≤
          (runContact def_flags def_hitbox stats
            (contactFrameStep def_flags def_hitbox stats cooldown fi).1 mid).1 :=
        runContact_cd_lower def_flags def_hitbox stats mid _ (3 / 10) hmid le_rfl
          (by rw [hcd_i])
      rcases contactFrameStep_cases def_flags def_hitbox stats
          (runContact def_flags def_hitbox stats
            (contactFrameStep def_flags def_hitbox stats cooldown fi).1 mid).1 fj with
        hcj | ⟨tj, hTj, hstepj, hdj, hcdj, _⟩
      · rw [hcj] at hemit_j
        simp at hemit_j
      · by_cases hpos : (runContact def_flags def_hitbox stats
            (contactFrameStep def_flags def_hitbox stats cooldown fi).1 mid).1 > 0
        · rw [if_pos hpos, fmax_eq_max] at hcdj
          have h2 : max ((runContact def_flags def_hitbox stats
              (contactFrameStep def_flags def_hitbox stats cooldown fi).1 mid).1 - fj.dt)
              0 ≤ 0 := le_of_not_lt hcdj
          have h3 := le_trans (le_max_left _ _) h2
          linarith
        · have h2 := le_of_not_lt hpos
          linarith

theorem contact_damage_gate_spec_witness :
    (contactFrameStep DEF_FLAG_TARGET_PLAYER ⟨0, 0, 10, 10⟩ ⟨[("damage", 5)]⟩ 0
        ⟨1/60, ⟨0, 0⟩, some (.player ⟨⟨5, 5⟩, ⟨5, 5, 4, 4⟩⟩),
          some ⟨⟨5, 5⟩, ⟨5, 5, 4, 4⟩⟩, []⟩).2 ≠ [] ∧
    (contactFrameStep DEF_FLAG_TARGET_PLAYER ⟨0, 0, 10, 10⟩ ⟨[("damage", 5)]⟩ 0
        ⟨1/60, ⟨0, 0⟩, some (.player ⟨⟨5, 5⟩, ⟨5, 5, 4, 4⟩⟩),
          some ⟨⟨5, 5⟩, ⟨5, 5, 4, 4⟩⟩, []⟩).1 = 3 / 10 :=
  ⟨by with_unfolding_all decide,
    (contact_damage_gate_spec.1 DEF_FLAG_TARGET_PLAYER ⟨0, 0, 10, 10⟩ ⟨[("damage", 5)]⟩ 0
      ⟨1/60, ⟨0, 0⟩, some (.player ⟨⟨5, 5⟩, ⟨5, 5, 4, 4⟩⟩),
        some ⟨⟨5, 5⟩, ⟨5, 5, 4, 4⟩⟩, []⟩ (by with_unfolding_all decide)).2.2.2⟩

theorem selector_eval_spec_witness :
    (eval_behavior inst0 ctx0 (.selector [.action "a" true [] []])).1 =
      some ⟨"a", []⟩ ∧
    (select_actions (.selector [.action "a" true [] []]) inst0 ctx0).head? =
      some ⟨"a", []⟩ :=
  ⟨by decide,
    (selector_eval_spec inst0 ctx0 [.action "a" true [] []]).2.2.2.2.2.2
      ⟨"a", []⟩ (by decide)⟩

theorem overlaps_true_iff (a b : Rect) :
    a.overlaps b = true ↔
      a.x ≤ b.x + b.w ∧ a.x + a.w ≥ b.x ∧ a.y ≤ b.y + b.h ∧ a.y + a.h ≥ b.y := by
  simp [Rect.overlaps, and_assoc]

theorem overlaps_false_of_right_lt (a b : Rect) (h : a.x + a.w < b.x) :
    a.overlaps b = false := by
  have hd : decide (a.x + a.w ≥ b.x) = false := decide_eq_false (by linarith)
  simp [Rect.overlaps, hd]

theorem overlaps_false_of_left_gt (a b : Rect) (h : b.x + b.w < a.x) :
    a.overlaps b = false := by
  have hd : decide (a.x ≤ b.x + b.w) = false := decide_eq_false (by linarith)
  simp [Rect.overlaps, hd]

theorem overlaps_false_of_bottom_lt (a b : Rect) (h : a.y + a.h < b.y) :
    a.overlaps b = false := by
  have hd : decide (a.y + a.h ≥ b.y) = false := decide_eq_false (by linarith)
  simp [Rect.overlaps, hd]

theorem overlaps_false_of_top_gt (a b : Rect) (h : b.y + b.h < a.y) :
    a.overlaps b = false := by
  have hd : decide (a.y ≤ b.y + b.h) = false := decide_eq_false (by linarith)
  simp [Rect.overlaps, hd]

theorem foldl_pushMin_le_start :
    ∀ (l : List ℚ) (a : ℚ), l.foldl (fun acc t => if t < acc then t else acc) a ≤ a
  | [], a => le_refl a
  | t :: rest, a => by
    simp only [List.foldl_cons]
    refine le_trans (foldl_pushMin_le_start rest _) ?_
    split
    · linarith
    · exact le_refl a

theorem foldl_pushMin_le_mem :
    ∀ (l : List ℚ) (a t : ℚ), t ∈ l →
      l.foldl (fun acc s => if s < acc then s else acc) a ≤ t
  | [], _, _, h => by simp at h
  | s :: rest, a, t, h => by
    simp only [List.foldl_cons]
    rcases List.mem_cons.mp h with h1 | h2
    · subst h1
      refine le_trans (foldl_pushMin_le_start rest _) ?_
      split
      · exact le_refl t
      · rename_i hns
        exact le_of_not_lt hns
    · exact foldl_pushMin_le_mem rest _ t h2

theorem foldl_pushMin_cases :
    ∀ (l : List ℚ) (a : ℚ),
      l.foldl (fun acc s => if s < acc then s else acc) a = a ∨
      l.foldl (fun acc s => if s < acc then s else acc) a ∈ l
  | [], _ => Or.inl rfl
  | s :: rest, a => by
    simp only [List.foldl_cons]
    rcases foldl_pushMin_cases rest (if s < a then s else a) with h1 | h2
    · rw [h1]
      split
      · exact Or.inr (List.mem_cons_self _ _)
      · exact Or.inl rfl
    · exact Or.inr (List.mem_cons_of_mem _ h2)

theorem foldl_pushMax_ge_start :
    ∀ (l : List ℚ) (a : ℚ), a ≤ l.foldl (fun acc t => if t > acc then t else acc) a
  | [], a => le_refl a
  | t :: rest, a => by
    simp only [List.foldl_cons]
    refine le_trans ?_ (foldl_pushMax_ge_start rest _)
    split
    · linarith
    · exact le_refl a

theorem foldl_pushMax_ge_mem :
    ∀ (l : List ℚ) (a t : ℚ), t ∈ l →
      t ≤ l.foldl (fun acc s => if s > acc then s else acc) a
  | [], _, _, h => by simp at h
  | s :: rest, a, t, h => by
    simp only [List.foldl_cons]
    rcases List.mem_cons.mp h with h1 | h2
    · subst h1
      refine le_trans ?_ (foldl_pushMax_ge_start rest _)
      split
      · exact le_refl t
      · rename_i hns
        exact le_of_not_lt hns
    · exact foldl_pushMax_ge_mem rest _ t h2

theorem foldl_pushMax_cases :
    ∀ (l : List ℚ) (a : ℚ),
      l.foldl (fun acc s => if s > acc then s else acc) a = a ∨
      l.foldl (fun acc s => if s > acc then s else acc) a ∈ l
  | [], _ => Or.inl rfl
  | s :: rest, a => by
    simp only [List.foldl_cons]
    rcases foldl_pushMax_cases rest (if s > a then s else a) with h1 | h2
    · rw [h1]
      split
      · exact Or.inr (List.mem_cons_self _ _)
      · exact Or.inl rfl
    · exact Or.inr (List.mem_cons_of_mem _ h2)

theorem scanAxisX_pos_spec (hitbox rect : Rect) (v : ℚ) (hv : 0 < v) :
    ∀ (cs : List Rect) (cand : ℚ) (hit : Bool),
      scanAxisX hitbox rect v cs cand hit =
        (((cs.filter fun c => rect.overlaps c).map
            (fun c => c.x - hitbox.w - hitbox.x - collisionEpsilon)).foldl
          (fun acc t => if t < acc then t else acc) cand,
         hit || cs.any fun c => rect.overlaps c)
  | [], cand, hit => by simp [scanAxisX]
  | c :: rest, cand, hit => by
    cases hov : rect.overlaps c
    · rw [show scanAxisX hitbox rect v (c :: rest) cand hit =
          scanAxisX hitbox rect v rest cand hit from by simp [scanAxisX, hov]]
      rw [scanAxisX_pos_spec hitbox rect v hv rest cand hit]
      simp [List.filter_cons, hov]
    · rw [show scanAxisX hitbox rect v (c :: rest) cand hit =
          scanAxisX hitbox rect v rest
            (if c.x - hitbox.w - hitbox.x - collisionEpsilon < cand then
              c.x - hitbox.w - hitbox.x - collisionEpsilon
            else cand) true from by simp [scanAxisX, hov, hv]]
      rw [scanAxisX_pos_spec hitbox rect v hv rest _ true]
      simp [List.filter_cons, hov, List.any_cons]

theorem scanAxisX_neg_spec (hitbox rect : Rect) (v : ℚ) (hv : ¬v > 0) :
    ∀ (cs : List Rect) (cand : ℚ) (hit : Bool),
      scanAxisX hitbox rect v cs cand hit =
        (((cs.filter fun c => rect.overlaps c).map
            (fun c => c.x + c.w - hitbox.x + collisionEpsilon)).foldl
          (fun acc t => if t > acc then t else acc) cand,
         hit || cs.any fun c => rect.overlaps c)
  | [], cand, hit => by simp [scanAxisX]
  | c :: rest, cand, hit => by
    cases hov : rect.overlaps c
    · rw [show scanAxisX hitbox rect v (c :: rest) cand hit =
          scanAxisX hitbox rect v rest cand hit from by simp [scanAxisX, hov]]
      rw [scanAxisX_neg_spec hitbox rect v hv rest cand hit]
      simp [List.filter_cons, hov]
    · rw [show scanAxisX hitbox rect v (c :: rest) cand hit =
          scanAxisX hitbox rect v rest
            (if c.x + c.w - hitbox.x + collisionEpsilon > cand then
              c.x + c.w - hitbox.x + collisionEpsilon
            else cand) true from by simp [scanAxisX, hov, hv]]
      rw [scanAxisX_neg_spec hitbox rect v hv rest _ true]
      simp [List.filter_cons, hov, List.any_cons]

theorem scanAxisY_pos_spec (hitbox rect : Rect) (v : ℚ) (hv : 0 < v) :
    ∀ (cs : List Rect) (cand : ℚ) (hit : Bool),
      scanAxisY hitbox rect v cs cand hit =
        (((cs.filter fun c => rect.overlaps c).map
            (fun c => c.y - hitbox.h - hitbox.y - collisionEpsilon)).foldl
          (fun acc t => if t < acc then t else acc) cand,
         hit || cs.any fun c => rect.overlaps c)
  | [], cand, hit => by simp [scanAxisY]
  | c :: rest, cand, hit => by
    cases hov : rect.overlaps c
    · rw [show scanAxisY hitbox rect v (c :: rest) cand hit =
          scanAxisY hitbox rect v rest cand hit from by simp [scanAxisY, hov]]
      rw [scanAxisY_pos_spec hitbox rect v hv rest cand hit]
      simp [List.filter_cons, hov]
    · rw [show scanAxisY hitbox rect v (c :: rest) cand hit =
          scanAxisY hitbox rect v rest
            (if c.y - hitbox.h - hitbox.y - collisionEpsilon < cand then
              c.y - hitbox.h - hitbox.y - collisionEpsilon
            else cand) true from by simp [scanAxisY, hov, hv]]
      rw [scanAxisY_pos_spec hitbox rect v hv rest _ true]
      simp [List.filter_cons, hov, List.any_cons]

theorem scanAxisY_neg_spec (hitbox rect : Rect) (v : ℚ) (hv : ¬v > 0) :
    ∀ (cs : List Rect) (cand : ℚ) (hit : Bool),
      scanAxisY hitbox rect v cs cand hit =
        (((cs.filter fun c => rect.overlaps c).map
            (fun c => c.y + c.h - hitbox.y + collisionEpsilon)).foldl
          (fun acc t => if t > acc then t else acc) cand,
         hit || cs.any fun c => rect.overlaps c)
  | [], cand, hit => by simp [scanAxisY]
  | c :: rest, cand, hit => by
    cases hov : rect.overlaps c
    · rw [show scanAxisY hitbox rect v (c :: rest) cand hit =
          scanAxisY hitbox rect v rest cand hit from by simp [scanAxisY, hov]]
      rw [scanAxisY_neg_spec hitbox rect v hv rest cand hit]
      simp [List.filter_cons, hov]
    · rw [show scanAxisY hitbox rect v (c :: rest) cand hit =
          scanAxisY hitbox rect v rest
            (if c.y + c.h - hitbox.y + collisionEpsilon > cand then
              c.y + c.h - hitbox.y + collisionEpsilon
            else cand) true from by simp [scanAxisY, hov, hv]]
      rw [scanAxisY_neg_spec hitbox rect v hv rest _ true]
      simp [List.filter_cons, hov, List.any_cons]

/-- C8: if no collider overlaps the actor's world hitbox, the axis resolver
returns the original position and axis velocity unchanged (no-op on
non-overlap); if some collider overlaps and the axis velocity is
nonzero, the returned axis velocity is zero, the off-axis coordinate is
unchanged, and the position is pushed back against the velocity
direction to the nearest non-overlapping position along the axis (the
boundary of the furthest-reaching overlapping collider, with the
epsilon margin), so that no originally-overlapping collider still
overlaps the pushed-back hitbox. -/
theorem resolve_collisions_axis_spec (hitbox : Rect) (pos : Vec2) (vel_axis : ℚ)
    (colliders : List Rect) (axis : Axis) :
    ((∀ c ∈ colliders, (world_hitbox hitbox pos).overlaps c = false) →
      resolve_collisions_axis hitbox pos vel_axis colliders axis = (pos, vel_axis)) ∧
    (vel_axis ≠ 0 →
      ∀ c0 ∈ colliders, (world_hitbox hitbox pos).overlaps c0 = true →
        (resolve_collisions_axis hitbox pos vel_axis colliders axis).2 = 0 ∧
        (axis = Axis.X →
          (resolve_collisions_axis hitbox pos vel_axis colliders axis).1.y = pos.y ∧
          (0 < vel_axis →
            (resolve_collisions_axis hitbox pos vel_axis colliders axis).1.x < pos.x ∧
            (∃ c ∈ colliders, (world_hitbox hitbox pos).overlaps c = true ∧
              (resolve_collisions_axis hitbox pos vel_axis colliders axis).1.x =
                c.x - hitbox.w - hitbox.x - collisionEpsilon) ∧
            (∀ c ∈ colliders, (world_hitbox hitbox pos).overlaps c = true →
              (resolve_collisions_axis hitbox pos vel_axis colliders axis).1.x ≤
                c.x - hitbox.w - hitbox.x - collisionEpsilon ∧
              (world_hitbox hitbox
                  (resolve_collisions_axis hitbox pos vel_axis colliders axis).1).overlaps
                c = false)) ∧
          (vel_axis < 0 →
            pos.x < (resolve_collisions_axis hitbox pos vel_axis colliders axis).1.x ∧
            (∃ c ∈ colliders, (world_hitbox hitbox pos).overlaps c = true ∧
              (resolve_collisions_axis hitbox pos vel_axis colliders axis).1.x =
                c.x + c.w - hitbox.x + collisionEpsilon) ∧
            (∀ c ∈ colliders, (world_hitbox hitbox pos).overlaps c = true →
              c.x + c.w - hitbox.x + collisionEpsilon ≤
                (resolve_collisions_axis hitbox pos vel_axis colliders axis).1.x ∧
              (world_hitbox hitbox
                  (resolve_collisions_axis hitbox pos vel_axis colliders axis).1).overlaps
                c = false))) ∧
        (axis = Axis.Y →
          (resolve_collisions_axis hitbox pos vel_axis colliders axis).1.x = pos.x ∧
          (0 < vel_axis →
            (resolve_collisions_axis hitbox pos vel_axis colliders axis).1.y < pos.y ∧
            (∃ c ∈ colliders, (world_hitbox hitbox pos).overlaps c = true ∧
              (resolve_collisions_axis hitbox pos vel_axis colliders axis).1.y =
                c.y - hitbox.h - hitbox.y - collisionEpsilon) ∧
            (∀ c ∈ colliders, (world_hitbox hitbox pos).overlaps c = true →
              (resolve_collisions_axis hitbox pos vel_axis colliders axis).1.y ≤
                c.y - hitbox.h - hitbox.y - collisionEpsilon ∧
              (world_hitbox hitbox
                  (resolve_collisions_axis hitbox pos vel_axis colliders axis).1).overlaps
                c = false)) ∧
          (vel_axis < 0 →
            pos.y < (resolve_collisions_axis hitbox pos vel_axis colliders axis).1.y ∧
            (∃ c ∈ colliders, (world_hitbox hitbox pos).overlaps c = true ∧
              (resolve_collisions_axis hitbox pos vel_axis colliders axis).1.y =
                c.y + c.h - hitbox.y + collisionEpsilon) ∧
            (∀ c ∈ colliders, (world_hitbox hitbox pos).overlaps c = true →
              c.y + c.h - hitbox.y + collisionEpsilon ≤
                (resolve_collisions_axis hitbox pos vel_axis colliders axis).1.y ∧
              (world_hitbox hitbox
                  (resolve_collisions_axis hitbox pos vel_axis colliders axis).1).overlaps
                c = false)))) := by
  have heps : (0 : ℚ) < collisionEpsilon := by norm_num [collisionEpsilon]
  constructor
  · intro h
    by_cases hv0 : vel_axis = 0
    · unfold resolve_collisions_axis
      rw [if_pos hv0]
    · have hany : (colliders.any fun c =>
          (Rect.mk (pos.x + hitbox.x) (pos.y + hitbox.y) hitbox.w hitbox.h).overlaps c) =
          false := by
        apply List.any_eq_false.mpr
        intro c hc
        have hcf := h c hc
        simp only [world_hitbox] at hcf
        simp [hcf]
      cases axis
      · simp only [resolve_collisions_axis]
        rw [if_neg hv0]
        by_cases hv : 0 < vel_axis
        · rw [scanAxisX_pos_spec hitbox _ vel_axis hv colliders pos.x false]
          simp [hany]
        · rw [scanAxisX_neg_spec hitbox _ vel_axis hv colliders pos.x false]
          simp [hany]
      · simp only [resolve_collisions_axis]
        rw [if_neg hv0]
        by_cases hv : 0 < vel_axis
        · rw [scanAxisY_pos_spec hitbox _ vel_axis hv colliders pos.y false]
          simp [hany]
        · rw [scanAxisY_neg_spec hitbox _ vel_axis hv colliders pos.y false]
          simp [hany]
  · intro hvel c0 hc0 hov0
    have hov0l : (Rect.mk (pos.x + hitbox.x) (pos.y + hitbox.y) hitbox.w hitbox.h).overlaps
        c0 = true := by
      simpa [world_hitbox] using hov0
    have hany : (colliders.any fun c =>
        (Rect.mk (pos.x + hitbox.x) (pos.y + hitbox.y) hitbox.w hitbox.h).overlaps c) =
        true := List.any_eq_true.mpr ⟨c0, hc0, hov0l⟩
    have hov0c := (overlaps_true_iff _ _).mp hov0l
    cases axis
    case X =>
      by_cases hv : 0 < vel_axis
      · set F := ((colliders.filter fun c =>
            (Rect.mk (pos.x + hitbox.x) (pos.y + hitbox.y) hitbox.w
              hitbox.h).overlaps c).map
            (fun c => c.x - hitbox.w - hitbox.x - collisionEpsilon)).foldl
            (fun acc t => if t < acc then t else acc) pos.x with hF
        have hres : resolve_collisions_axis hitbox pos vel_axis colliders Axis.X =
            ({ pos with x := F }, 0) := by
          simp only [resolve_collisions_axis]
          rw [if_neg hvel]
          rw [scanAxisX_pos_spec hitbox _ vel_axis hv colliders pos.x false]
          simp [hany, hF]
        have hle : ∀ c ∈ colliders,
            (Rect.mk (pos.x + hitbox.x) (pos.y + hitbox.y) hitbox.w hitbox.h).overlaps c =
              true → F ≤ c.x - hitbox.w - hitbox.x - collisionEpsilon := by
          intro c hc hov
          rw [hF]
          exact foldl_pushMin_le_mem _ _ _
            (List.mem_map.mpr ⟨c, List.mem_filter.mpr ⟨hc, hov⟩, rfl⟩)
        have htgt0 : c0.x - hitbox.w - hitbox.x - collisionEpsilon < pos.x := by
          have h21 := hov0c.2.1
          dsimp at h21
          linarith
        have hFlt : F < pos.x := lt_of_le_of_lt (hle c0 hc0 hov0l) htgt0
        refine ⟨by rw [hres], ?_, fun hxy => Axis.noConfusion hxy⟩
        intro _
        refine ⟨by rw [hres], ?_, fun hneg => absurd hneg (not_lt.mpr (le_of_lt hv))⟩
        intro _
        refine ⟨by rw [hres]; exact hFlt, ?_, ?_⟩
        · have hcases := foldl_pushMin_cases ((colliders.filter fun c =>
              (Rect.mk (pos.x + hitbox.x) (pos.y + hitbox.y) hitbox.w
                hitbox.h).overlaps c).map
              (fun c => c.x - hitbox.w - hitbox.x - collisionEpsilon)) pos.x
          rw [← hF] at hcases
          rcases hcases with hEq | hMem
          · exfalso
            rw [hEq] at hFlt
            exact absurd hFlt (lt_irrefl _)
          · rcases List.mem_map.mp hMem with ⟨c, hcf, htgt⟩
            rcases List.mem_filter.mp hcf with ⟨hcs, hovc⟩
            refine ⟨c, hcs, ?_, ?_⟩
            · simp only [world_hitbox]
              exact hovc
            · rw [hres]
              exact htgt.symm
        · intro c hc hov
          have hovl : (Rect.mk (pos.x + hitbox.x) (pos.y + hitbox.y) hitbox.w
              hitbox.h).overlaps c = true := by
            simpa [world_hitbox] using hov
          have h1 := hle c hc hovl
          refine ⟨by rw [hres]; exact h1, ?_⟩
          rw [hres]
          apply overlaps_false_of_right_lt
          simp only [world_hitbox]
          linarith
      · have hvneg : vel_axis < 0 := lt_of_le_of_ne (le_of_not_lt hv) hvel
        set F := ((colliders.filter fun c =>
            (Rect.mk (pos.x + hitbox.x) (pos.y + hitbox.y) hitbox.w
              hitbox.h).overlaps c).map
            (fun c => c.x + c.w - hitbox.x + collisionEpsilon)).foldl
            (fun acc t => if t > acc then t else acc) pos.x with hF
        have hres : resolve_collisions_axis hitbox pos vel_axis colliders Axis.X =
            ({ pos with x := F }, 0) := by
          simp only [resolve_collisions_axis]
          rw [if_neg hvel]
          rw [scanAxisX_neg_spec hitbox _ vel_axis hv colliders pos.x false]
          simp [hany, hF]
        have hge : ∀ c ∈ colliders,
            (Rect.mk (pos.x + hitbox.x) (pos.y + hitbox.y) hitbox.w hitbox.h).overlaps c =
              true → c.x + c.w - hitbox.x + collisionEpsilon ≤ F := by
          intro c hc hov
          rw [hF]
          exact foldl_pushMax_ge_mem _ _ _
            (List.mem_map.mpr ⟨c, List.mem_filter.mpr ⟨hc, hov⟩, rfl⟩)
        have htgt0 : pos.x < c0.x + c0.w - hitbox.x + collisionEpsilon := by
          have h21 := hov0c.1
          dsimp at h21
          linarith
        have hFgt : pos.x < F := lt_of_lt_of_le htgt0 (hge c0 hc0 hov0l)
        refine ⟨by rw [hres], ?_, fun hxy => Axis.noConfusion hxy⟩
        intro _
        refine ⟨by rw [hres], fun hpos => absurd hpos hv, ?_⟩
        intro _
        refine ⟨by rw [hres]; exact hFgt, ?_, ?_⟩
        · have hcases := foldl_pushMax_cases ((colliders.filter fun c =>
              (Rect.mk (pos.x + hitbox.x) (pos.y + hitbox.y) hitbox.w
                hitbox.h).overlaps c).map
              (fun c => c.x + c.w - hitbox.x + collisionEpsilon)) pos.x
          rw [← hF] at hcases
          rcases hcases with hEq | hMem
          · exfalso
            rw [hEq] at hFgt
            exact absurd hFgt (lt_irrefl _)
          · rcases List.mem_map.mp hMem with ⟨c, hcf, htgt⟩
            rcases List.mem_filter.mp hcf with ⟨hcs, hovc⟩
            refine ⟨c, hcs, ?_, ?_⟩
            · simp only [world_hitbox]
              exact hovc
            · rw [hres]
              exact htgt.symm
        · intro c hc hov
          have hovl : (Rect.mk (pos.x + hitbox.x) (pos.y + hitbox.y) hitbox.w
              hitbox.h).overlaps c = true := by
            simpa [world_hitbox] using hov
          have h1 := hge c hc hovl
          refine ⟨by rw [hres]; exact h1, ?_⟩
          rw [hres]
          apply overlaps_false_of_left_gt
          simp only [world_hitbox]
          linarith
    case Y =>
      by_cases hv : 0 < vel_axis
      · set F := ((colliders.filter fun c =>
            (Rect.mk (pos.x + hitbox.x) (pos.y + hitbox.y) hitbox.w
              hitbox.h).overlaps c).map
            (fun c => c.y - hitbox.h - hitbox.y - collisionEpsilon)).foldl
            (fun acc t => if t < acc then t else acc) pos.y with hF
        have hres : resolve_collisions_axis hitbox pos vel_axis colliders Axis.Y =
            ({ pos with y := F }, 0) := by
          simp only [resolve_collisions_axis]
          rw [if_neg hvel]
          rw [scanAxisY_pos_spec hitbox _ vel_axis hv colliders pos.y false]
          simp [hany, hF]
        have hle : ∀ c ∈ colliders,
            (Rect.mk (pos.x + hitbox.x) (pos.y + hitbox.y) hitbox.w hitbox.h).overlaps c =
              true → F ≤ c.y - hitbox.h - hitbox.y - collisionEpsilon := by
          intro c hc hov
          rw [hF]
          exact foldl_pushMin_le_mem _ _ _
            (List.mem_map.mpr ⟨c, List.mem_filter.mpr ⟨hc, hov⟩, rfl⟩)
        have htgt0 : c0.y - hitbox.h - hitbox.y - collisionEpsilon < pos.y := by
          have h21 := hov0c.2.2.2
          dsimp at h21
          linarith
        have hFlt : F < pos.y := lt_of_le_of_lt (hle c0 hc0 hov0l) htgt0
        refine ⟨by rw [hres], fun hxy => Axis.noConfusion hxy, ?_⟩
        intro _
        refine ⟨by rw [hres], ?_, fun hneg => absurd hneg (not_lt.mpr (le_of_lt hv))⟩
        intro _
        refine ⟨by rw [hres]; exact hFlt, ?_, ?_⟩
        · have hcases := foldl_pushMin_cases ((colliders.filter fun c =>
              (Rect.mk (pos.x + hitbox.x) (pos.y + hitbox.y) hitbox.w
                hitbox.h).overlaps c).map
              (fun c => c.y - hitbox.h - hitbox.y - collisionEpsilon)) pos.y
          rw [← hF] at hcases
          rcases hcases with hEq | hMem
          · exfalso
            rw [hEq] at hFlt
            exact absurd hFlt (lt_irrefl _)
          · rcases List.mem_map.mp hMem with ⟨c, hcf, htgt⟩
            rcases List.mem_filter.mp hcf with ⟨hcs, hovc⟩
            refine ⟨c, hcs, ?_, ?_⟩
            · simp only [world_hitbox]
              exact hovc
            · rw [hres]
              exact htgt.symm
        · intro c hc hov
          have hovl : (Rect.mk (pos.x + hitbox.x) (pos.y + hitbox.y) hitbox.w
              hitbox.h).overlaps c = true := by
            simpa [world_hitbox] using hov
          have h1 := hle c hc hovl
          refine ⟨by rw [hres]; exact h1, ?_⟩
          rw [hres]
          apply overlaps_false_of_bottom_lt
          simp only [world_hitbox]
          linarith
      · have hvneg : vel_axis < 0 := lt_of_le_of_ne (le_of_not_lt hv) hvel
        set F := ((colliders.filter fun c =>
            (Rect.mk (pos.x + hitbox.x) (pos.y + hitbox.y) hitbox.w
              hitbox.h).overlaps c).map
            (fun c => c.y + c.h - hitbox.y + collisionEpsilon)).foldl
            (fun acc t => if t > acc then t else acc) pos.y with hF
        have hres : resolve_collisions_axis hitbox pos vel_axis colliders Axis.Y =
            ({ pos with y := F }, 0) := by
          simp only [resolve_collisions_axis]
          rw [if_neg hvel]
          rw [scanAxisY_neg_spec hitbox _ vel_axis hv colliders pos.y false]
          simp [hany, hF]
        have hge : ∀ c ∈ colliders,
            (Rect.mk (pos.x + hitbox.x) (pos.y + hitbox.y) hitbox.w hitbox.h).overlaps c =
              true → c.y + c.h - hitbox.y + collisionEpsilon ≤ F := by
          intro c hc hov
          rw [hF]
          exact foldl_pushMax_ge_mem _ _ _
            (List.mem_map.mpr ⟨c, List.mem_filter.mpr ⟨hc, hov⟩, rfl⟩)
        have htgt0 : pos.y < c0.y + c0.h - hitbox.y + collisionEpsilon := by
          have h21 := hov0c.2.2.1
          dsimp at h21
          linarith
        have hFgt : pos.y < F := lt_of_lt_of_le htgt0 (hge c0 hc0 hov0l)
        refine ⟨by rw [hres], fun hxy => Axis.noConfusion hxy, ?_⟩
        intro _
        refine ⟨by rw [hres], fun hpos => absurd hpos hv, ?_⟩
        intro _
        refine ⟨by rw [hres]; exact hFgt, ?_, ?_⟩
        · have hcases := foldl_pushMax_cases ((colliders.filter fun c =>
              (Rect.mk (pos.x + hitbox.x) (pos.y + hitbox.y) hitbox.w
                hitbox.h).overlaps c).map
              (fun c => c.y + c.h - hitbox.y + collisionEpsilon)) pos.y
          rw [← hF] at hcases
          rcases hcases with hEq | hMem
          · exfalso
            rw [hEq] at hFgt
            exact absurd hFgt (lt_irrefl _)
          · rcases List.mem_map.mp hMem with ⟨c, hcf, htgt⟩
            rcases List.mem_filter.mp hcf with ⟨hcs, hovc⟩
            refine ⟨c, hcs, ?_, ?_⟩
            · simp only [world_hitbox]
              exact hovc
            · rw [hres]
              exact htgt.symm
        · intro c hc hov
          have hovl : (Rect.mk (pos.x + hitbox.x) (pos.y + hitbox.y) hitbox.w
              hitbox.h).overlaps c = true := by
            simpa [world_hitbox] using hov
          have h1 := hge c hc hovl
          refine ⟨by rw [hres]; exact h1, ?_⟩
          rw [hres]
          apply overlaps_false_of_top_gt
          simp only [world_hitbox]
          linarith

theorem resolve_collisions_axis_spec_witness :
    ((world_hitbox ⟨0, 0, 4, 4⟩ ⟨0, 0⟩).overlaps ⟨2, 0, 4, 4⟩ = true) ∧
    (resolve_collisions_axis ⟨0, 0, 4, 4⟩ ⟨0, 0⟩ 1 [⟨2, 0, 4, 4⟩] Axis.X).2 = 0 :=
  ⟨by with_unfolding_all decide,
    ((resolve_collisions_axis_spec ⟨0, 0, 4, 4⟩ ⟨0, 0⟩ 1 [⟨2, 0, 4, 4⟩] Axis.X).2
      (by norm_num) ⟨2, 0, 4, 4⟩ (by decide) (by with_unfolding_all decide)).1⟩

/-- C7: when the pair-separation kernel fires, both hitboxes strictly
overlap on both axes, the two deltas are equal and opposite, the
correction moves only along the axis of smaller penetration with
magnitude half that axis overlap plus the epsilon and a sign chosen by
comparing centers; and in the concrete scenario of two 10x10 hitboxes at
(0,0) and (6,0) with no exemption flags, one pass ends with a
non-negative horizontal gap, no residual overlap, and a symmetric
displacement of 2.001 to each side. -/
theorem overlap_separator_spec :
    (∀ (a_hb b_hb : Rect) (d : Vec2 × Vec2), resolveOverlapPush a_hb b_hb = some d →
      d.2.x = -d.1.x ∧ d.2.y = -d.1.y ∧
      (fmin (a_hb.x + a_hb.w) (b_hb.x + b_hb.w) - fmax a_hb.x b_hb.x ≤
          fmin (a_hb.y + a_hb.h) (b_hb.y + b_hb.h) - fmax a_hb.y b_hb.y →
        d.1.y = 0 ∧
        d.1.x =
          (if a_hb.x + a_hb.w * (1 / 2) ≤ b_hb.x + b_hb.w * (1 / 2) then (-1 : ℚ) else 1) *
            ((fmin (a_hb.x + a_hb.w) (b_hb.x + b_hb.w) - fmax a_hb.x b_hb.x) * (1 / 2) +
              overlapEpsilon)) ∧
      (¬(fmin (a_hb.x + a_hb.w) (b_hb.x + b_hb.w) - fmax a_hb.x b_hb.x ≤
          fmin (a_hb.y + a_hb.h) (b_hb.y + b_hb.h) - fmax a_hb.y b_hb.y) →
        d.1.x = 0 ∧
        d.1.y =
          (if a_hb.y + a_hb.h * (1 / 2) ≤ b_hb.y + b_hb.h * (1 / 2) then (-1 : ℚ) else 1) *
            ((fmin (a_hb.y + a_hb.h) (b_hb.y + b_hb.h) - fmax a_hb.y b_hb.y) * (1 / 2) +
              overlapEpsilon)) ∧
      0 < fmin (a_hb.x + a_hb.w) (b_hb.x + b_hb.w) - fmax a_hb.x b_hb.x ∧
      0 < fmin (a_hb.y + a_hb.h) (b_hb.y + b_hb.h) - fmax a_hb.y b_hb.y) ∧
    ((twoEntityOverlapPass 0 0 .enemy .enemy ⟨0, 0, 10, 10⟩ ⟨0, 0, 10, 10⟩
        ⟨0, 0⟩ ⟨6, 0⟩).1 = ⟨-(2001 / 1000), 0⟩ ∧
      (twoEntityOverlapPass 0 0 .enemy .enemy ⟨0, 0, 10, 10⟩ ⟨0, 0, 10, 10⟩
        ⟨0, 0⟩ ⟨6, 0⟩).2 = ⟨8001 / 1000, 0⟩ ∧
      (twoEntityOverlapPass 0 0 .enemy .enemy ⟨0, 0, 10, 10⟩ ⟨0, 0, 10, 10⟩
            ⟨0, 0⟩ ⟨6, 0⟩).2.x -
          ((twoEntityOverlapPass 0 0 .enemy .enemy ⟨0, 0, 10, 10⟩ ⟨0, 0, 10, 10⟩
            ⟨0, 0⟩ ⟨6, 0⟩).1.x + 10) ≥ 0 ∧
      (world_hitbox ⟨0, 0, 10, 10⟩
          (twoEntityOverlapPass 0 0 .enemy .enemy ⟨0, 0, 10, 10⟩ ⟨0, 0, 10, 10⟩
            ⟨0, 0⟩ ⟨6, 0⟩).1).overlaps
        (world_hitbox ⟨0, 0, 10, 10⟩
          (twoEntityOverlapPass 0 0 .enemy .enemy ⟨0, 0, 10, 10⟩ ⟨0, 0, 10, 10⟩
            ⟨0, 0⟩ ⟨6, 0⟩).2) = false ∧
      (twoEntityOverlapPass 0 0 .enemy .enemy ⟨0, 0, 10, 10⟩ ⟨0, 0, 10, 10⟩
          ⟨0, 0⟩ ⟨6, 0⟩).1.x - 0 =
        -((twoEntityOverlapPass 0 0 .enemy .enemy ⟨0, 0, 10, 10⟩ ⟨0, 0, 10, 10⟩
          ⟨0, 0⟩ ⟨6, 0⟩).2.x - 6)) := by
  constructor
  · intro a_hb b_hb d h
    simp only [resolveOverlapPush] at h
    split at h
    · exact absurd h (by simp)
    · rename_i hno
      push_neg at hno
      split at h
      · rename_i hxy
        injection h with h1
        subst h1
        exact ⟨rfl, by norm_num, fun _ => ⟨rfl, rfl⟩, fun hc => absurd hxy hc,
          hno.1, hno.2⟩
      · rename_i hxy
        injection h with h1
        subst h1
        exact ⟨by norm_num, rfl, fun hc => absurd hc hxy, fun _ => ⟨rfl, rfl⟩,
          hno.1, hno.2⟩
  · have hpass : twoEntityOverlapPass 0 0 .enemy .enemy ⟨0, 0, 10, 10⟩ ⟨0, 0, 10, 10⟩
        ⟨0, 0⟩ ⟨6, 0⟩ = (⟨-(2001 / 1000), 0⟩, ⟨8001 / 1000, 0⟩) := by
      have hland : ∀ b : ℕ, Nat.land 0 b = 0 := fun b => by
        simp [Nat.land]
      norm_num [twoEntityOverlapPass, entities_should_collide, blocks_kind, hasFlag,
        DEF_FLAG_NO_ENTITY_COLLISION, DEF_FLAG_NO_ENEMY_COLLISION, resolveOverlapPush,
        world_hitbox, fmin, fmax, overlapEpsilon, Prod.ext_iff, Vec2.mk.injEq, hland]
    refine ⟨by rw [hpass], by rw [hpass], by rw [hpass]; norm_num, ?_, by rw [hpass]; norm_num⟩
    rw [hpass]
    apply overlaps_false_of_right_lt
    norm_num [world_hitbox]

theorem overlap_separator_spec_witness :
    resolveOverlapPush ⟨0, 0, 10, 10⟩ ⟨6, 0, 10, 10⟩ =
      some (⟨-(2001 / 1000), 0⟩, ⟨2001 / 1000, 0⟩) ∧
    ((⟨-(2001 / 1000), 0⟩, ⟨2001 / 1000, 0⟩) : Vec2 × Vec2).2.x =
      -(((⟨-(2001 / 1000), 0⟩, ⟨2001 / 1000, 0⟩) : Vec2 × Vec2).1.x) :=
  ⟨by norm_num [resolveOverlapPush, fmin, fmax, overlapEpsilon, Prod.ext_iff, Vec2.mk.injEq],
    (overlap_separator_spec.1 ⟨0, 0, 10, 10⟩ ⟨6, 0, 10, 10⟩
      (⟨-(2001 / 1000), 0⟩, ⟨2001 / 1000, 0⟩)
      (by norm_num [resolveOverlapPush, fmin, fmax, overlapEpsilon, Prod.ext_iff,
        Vec2.mk.injEq])).1⟩

end Cropbot
